import Mathlib

/-!
# safe-sql: the SELECT guard of `sql.go`

A shallow embedding of `src/sql.go` (package `sql`).  The Go code walks a
statement parsed by `github.com/xwb1989/sqlparser` and checks every name
against allowlists read from the `context.Context`.

Conventions of the embedding:

* A Go function `func f(ctx, x, r *Record) bool` becomes
  `f ctx x r : Bool × Record`: the returned boolean together with the
  record as the call leaves it.
* A Go interface value (`Statement`, `Expr`, `TableExpr`, `SimpleTableExpr`,
  `SelectExpr`) is either `nil` or one of the node types of the parser
  library; each interface is an inductive type with a constructor `nil`,
  one constructor per node type the library declares, and a constructor
  `other` for a dynamic type that none of the `case` arms of the Go type
  switch names.
* A pointer the Go code tests against `nil` (`*Where`, `*Limit`, `*Order`,
  `*When`) is an `Option`; a pointer it dereferences without a test
  (`ExistsExpr.Subquery`, `SubstrExpr.Name`) is the pointed-to value.
* A `for … range` loop with an early `return false` is a recursive function
  over the list, named after the element type.
* Fields of the parser's node types that `sql.go` never reads are left out or
  kept as a plain value (operators, join kinds, aliases, type names).
* Go `strings.ToUpper` is a parameter (class `GoStrings`), fixed only on
  strings of ASCII characters.
* The syntax-tree types hold more values than the parser builds.  Where a
  statement needs what the parser guarantees (a table name that is empty only
  with an empty qualifier, a function call that has a name, an expression of
  one of the library's types), the guarantee is a hypothesis.
-/

namespace SafeSql

/-! ## Strings -/

/-- Upper-casing of the ASCII letters: a-z to A-Z, every other character as
it is. -/
def asciiToUpper (s : String) : String :=
  String.mk (s.data.map Char.toUpper)

/-- Go `strings.ToUpper`, of the standard library: the function is a parameter
of the development.  All that is assumed of it is what Go does on a string of
ASCII characters, where it maps a-z to A-Z and leaves every other character
as it is; on any other string (Unicode case mapping) nothing is assumed. -/
class GoStrings where
  /-- Go `strings.ToUpper`. -/
  ToUpper : String → String
  /-- On a string of ASCII characters `strings.ToUpper` maps a-z to A-Z. -/
  ToUpper_ascii : ∀ s : String, (∀ c ∈ s.data, c.toNat < 128) → ToUpper s = asciiToUpper s

export GoStrings (ToUpper ToUpper_ascii)

/-- The `strings.ToUpper` that changes the ASCII letters only.  The closed
examples below are evaluated with it, on ASCII input, where every
`strings.ToUpper` gives the same result. -/
def asciiStrings : GoStrings :=
  GoStrings.mk asciiToUpper (fun _ _ => rfl)

/-- Go `InList[T string | int64](lst []T, element T) bool`. -/
def InList {T : Type} [DecidableEq T] (lst : List T) (element : T) : Bool :=
  match lst with
  | [] => false
  | i :: rest => if i = element then true else InList rest element

/-- Go `type Record struct { Msg string }`. -/
structure Record where
  Msg : String
deriving DecidableEq, Repr

/-- The five values `sql.go` reads from the context.  A field is `some l` when
`ctx.Value(key).([]string)` yields `l, true` and `none` when it yields
`_, false`.  Keys: `"Allow-Table-Name"`, `"Allow-DataBase-Name"`,
`"Allow-Col-Name"`, `"Allow-Func-Ident"`, `"Allow-Func-Name"`. -/
structure Context where
  allowTableName : Option (List String)
  allowDBName : Option (List String)
  allowColName : Option (List String)
  allowFuncIdent : Option (List String)
  allowFuncName : Option (List String)
deriving DecidableEq, Repr

/-! ## Identifiers of the parser library -/

/-- Parser type `TableIdent` (a wrapped string). -/
structure TableIdent where
  v : String
deriving DecidableEq, Repr

/-- Parser type `ColIdent` (a wrapped string; its cached lower-case form is
left out). -/
structure ColIdent where
  val : String
deriving DecidableEq, Repr

/-- Parser method `func (node TableIdent) IsEmpty() bool`: `node.v == ""`. -/
def TableIdent.IsEmpty (node : TableIdent) : Bool :=
  node.v == ""

/-- Parser method `func (node TableIdent) String() string`. -/
def TableIdent.Str (node : TableIdent) : String :=
  node.v

/-- Parser method `func (node ColIdent) String() string`. -/
def ColIdent.Str (node : ColIdent) : String :=
  node.val

/-- Parser type `TableName struct { Name, Qualifier TableIdent }`. -/
structure TableName where
  Name : TableIdent
  Qualifier : TableIdent
deriving DecidableEq, Repr

/-- Parser method `func (node TableName) IsEmpty() bool`, which the library
defines as `node.Name.IsEmpty()` (it looks at the name only: "if Name is
empty, Qualifier is also empty"). -/
def TableName.IsEmpty (node : TableName) : Bool :=
  node.Name.IsEmpty

/-- Parser type `ColName` (its `Metadata` field is left out). -/
structure ColName where
  Name : ColIdent
  Qualifier : TableName
deriving DecidableEq, Repr

/-- The statement types of the parser library that are neither `Select`,
`Union` nor `ParenSelect`; `sql.go` never looks inside them. -/
inductive StmtKind
  | Stream | Insert | Update | Delete | Set | DBDDL | DDL | Show | Use
  | Begin | Commit | Rollback | OtherRead | OtherAdmin
deriving DecidableEq, Repr

/-! ## Syntax trees of the parser library -/

mutual
/-- Interface `Expr`. -/
inductive Expr
  | nil
  | AndExpr (left right : Expr)
  | OrExpr (left right : Expr)
  | NotExpr (expr : Expr)
  | ParenExpr (expr : Expr)
  | ComparisonExpr (operator : String) (left right escape : Expr)
  | RangeCond (operator : String) (left from_ to_ : Expr)
  | IsExpr (operator : String) (expr : Expr)
  | ExistsExpr (subquery : Subquery)
  | SQLVal (typ : Nat) (val : String)
  | NullVal
  | BoolVal (b : Bool)
  | ColName (col : ColName)
  | ValTuple (exprs : List Expr)
  | Subquery (subquery : Subquery)
  | ListArg (arg : String)
  | BinaryExpr (operator : String) (left right : Expr)
  | UnaryExpr (operator : String) (expr : Expr)
  | IntervalExpr (expr : Expr) (unit : String)
  | CollateExpr (expr : Expr) (charset : String)
  | FuncExpr (qualifier : TableIdent) (name : ColIdent) (distinct : Bool)
      (exprs : List SelectExpr)
  | CaseExpr (expr : Expr) (whens : List (Option When)) (else_ : Expr)
  | ValuesFuncExpr (name : ColName)
  | ConvertExpr (expr : Expr) (typ : String)
  | SubstrExpr (name : ColName) (from_ to_ : Expr)
  | ConvertUsingExpr (expr : Expr) (typ : String)
  | MatchExpr (columns : List SelectExpr) (expr : Expr) (opt : String)
  | GroupConcatExpr (distinct : String) (exprs : List SelectExpr)
      (orderBy : List (Option Order)) (separator : String)
  | Default (colName : String)
  | other
/-- Struct `When { Cond Expr; Val Expr }`. -/
inductive When
  | mk (cond val : Expr)
/-- Struct `Order { Expr Expr; Direction string }`. -/
inductive Order
  | mk (expr : Expr) (direction : String)
/-- Interface `SelectExpr`. -/
inductive SelectExpr
  | nil
  | StarExpr (tableName : TableName)
  | AliasedExpr (expr : Expr) (as_ : ColIdent)
  | Nextval (expr : Expr)
  | other
/-- Interface `TableExpr`; `on_` is `JoinTableExpr.Condition.On`. -/
inductive TableExpr
  | nil
  | AliasedTableExpr (expr : SimpleTableExpr) (as_ : TableIdent)
  | ParenTableExpr (exprs : List TableExpr)
  | JoinTableExpr (leftExpr : TableExpr) (join : String) (rightExpr : TableExpr)
      (on_ : Expr)
  | other
/-- Interface `SimpleTableExpr`. -/
inductive SimpleTableExpr
  | nil
  | TableName (tableName : TableName)
  | Subquery (subquery : Subquery)
  | other
/-- Struct `Subquery { Select SelectStatement }`. -/
inductive Subquery
  | mk (select : Statement)
/-- Struct `Where { Type string; Expr Expr }`. -/
inductive Where
  | mk (typ : String) (expr : Expr)
/-- Struct `Limit { Offset, Rowcount Expr }`. -/
inductive Limit
  | mk (offset rowcount : Expr)
/-- Struct `Select`, with the fields `SelectExprs`, `From`, `Where`, `GroupBy`,
`Having`, `OrderBy`, `Limit`. -/
inductive Select
  | mk (selectExprs : List SelectExpr) (from_ : List TableExpr)
      (where_ : Option Where) (groupBy : List Expr) (having : Option Where)
      (orderBy : List (Option Order)) (limit : Option Limit)
/-- Interface `Statement`.  `Union` and `ParenSelect` are the other two
`SelectStatement` types, the ones a `Subquery` can also hold. -/
inductive Statement
  | nil
  | Select (select : Select)
  | Union (typ : String) (left right : Statement) (orderBy : List (Option Order))
      (limit : Option Limit)
  | ParenSelect (select : Statement)
  | Other (kind : StmtKind)
end

/-! ## The identifier checks -/

/-- Go `checkTableName`. -/
def checkTableName (ctx : Context) (tableName : TableName) (r : Record) :
    Bool × Record :=
  if tableName.IsEmpty then
    (true, r)
  else
    let nameRejected : Bool :=
      match ctx.allowTableName with
      | some allowTableName =>
        !tableName.Name.IsEmpty && !InList allowTableName tableName.Name.Str
      | none => false
    if nameRejected then
      (false, Record.mk ("bad table name for " ++ tableName.Name.Str))
    else
      match ctx.allowDBName with
      | some allowDBName =>
        if !tableName.Qualifier.IsEmpty && !InList allowDBName tableName.Qualifier.Str then
          (false, Record.mk ("bad table qualifier for " ++ tableName.Qualifier.Str))
        else
          (true, r)
      | none =>
        if !tableName.Qualifier.IsEmpty then
          (false, Record.mk ("bad table qualifier for " ++ tableName.Qualifier.Str))
        else
          (true, r)

/-- Go `checkColNameString`. -/
def checkColNameString (ctx : Context) (colname : String) (r : Record) :
    Bool × Record :=
  if colname.length == 0 then
    (true, r)
  else
    match ctx.allowColName with
    | some allowColName =>
      if !InList allowColName colname && !InList allowColName ("`" ++ colname ++ "`") then
        (false, Record.mk ("bad table col for " ++ colname))
      else
        (true, r)
    | none => (true, r)

/-- Go `checkColName`. -/
def checkColName (ctx : Context) (colname : ColName) (r : Record) : Bool × Record :=
  match checkTableName ctx colname.Qualifier r with
  | (false, r1) => (false, r1)
  | (true, r1) => checkColNameString ctx colname.Name.Str r1

/-- Go `checkFuncName`. -/
def checkFuncName [GoStrings] (ctx : Context) (ident : String) (funcName : String) (r : Record) :
    Bool × Record :=
  if funcName.length == 0 && ident.length == 0 then
    (false, r)
  else
    let identRejected : Bool :=
      if ident.length != 0 then
        match ctx.allowFuncIdent with
        | some allowColIdent => !InList allowColIdent ident
        | none => false
      else
        false
    if identRejected then
      (false, Record.mk ("bad func ident for " ++ ident))
    else
      match ctx.allowFuncName with
      | some allowColName =>
        if !InList allowColName (ToUpper funcName) then
          (false, Record.mk ("bad func name for " ++ funcName))
        else
          (true, r)
      | none => (false, Record.mk ("bad func name for " ++ funcName))

/-! ## The walk -/

mutual
/-- Go `checkStmt`. -/
def checkStmt [GoStrings] (ctx : Context) (stmt : Statement) (r : Record) : Bool × Record :=
  match stmt with
  | .nil => (true, r)
  | .Select (.mk selectExprs from_ where_ groupBy having orderBy limit) =>
    match checkSelectExprs ctx selectExprs r with
    | (false, r1) => (false, r1)
    | (true, r1) =>
    match checkTableExprs ctx from_ r1 with
    | (false, r2) => (false, r2)
    | (true, r2) =>
    match (match where_ with
           | none => (true, r2)
           | some (.mk _ e) => checkExpr ctx e r2) with
    | (false, r3) => (false, r3)
    | (true, r3) =>
    match checkExprs ctx groupBy r3 with
    | (false, r4) => (false, r4)
    | (true, r4) =>
    match (match having with
           | none => (true, r4)
           | some (.mk _ e) => checkExpr ctx e r4) with
    | (false, r5) => (false, r5)
    | (true, r5) =>
    match checkOrderBy ctx orderBy r5 with
    | (false, r6) => (false, r6)
    | (true, r6) =>
    match limit with
    | none => (true, r6)
    | some (.mk offset rowcount) =>
      match checkExpr ctx offset r6 with
      | (false, r7) => (false, r7)
      | (true, r7) =>
      match checkExpr ctx rowcount r7 with
      | (false, r8) => (false, r8)
      | (true, r8) => (true, r8)
  | .Union _ _ _ _ _ => (false, Record.mk "bad stmt operation")
  | .ParenSelect _ => (false, Record.mk "bad stmt operation")
  | .Other _ => (false, Record.mk "bad stmt operation")

/-- The loop `for _, i := range … { if !checkSelectExpr(ctx, i, r) { return false } }`
(in `checkStmt` and in the `FuncExpr`, `MatchExpr` and `GroupConcatExpr` arms). -/
def checkSelectExprs [GoStrings] (ctx : Context) (exprs : List SelectExpr) (r : Record) :
    Bool × Record :=
  match exprs with
  | [] => (true, r)
  | i :: rest =>
    match checkSelectExpr ctx i r with
    | (false, r1) => (false, r1)
    | (true, r1) => checkSelectExprs ctx rest r1

/-- The loop `for _, i := range … { if !checkTableExpr(ctx, i, r) { return false } }`
(in `checkStmt` and in the `ParenTableExpr` arm). -/
def checkTableExprs [GoStrings] (ctx : Context) (exprs : List TableExpr) (r : Record) :
    Bool × Record :=
  match exprs with
  | [] => (true, r)
  | i :: rest =>
    match checkTableExpr ctx i r with
    | (false, r1) => (false, r1)
    | (true, r1) => checkTableExprs ctx rest r1

/-- The loop `for _, g := range … { if !checkExpr(ctx, g, r) { return false } }`
(over `GroupBy` and in the `ValTuple` arm). -/
def checkExprs [GoStrings] (ctx : Context) (exprs : List Expr) (r : Record) : Bool × Record :=
  match exprs with
  | [] => (true, r)
  | g :: rest =>
    match checkExpr ctx g r with
    | (false, r1) => (false, r1)
    | (true, r1) => checkExprs ctx rest r1

/-- The loop over an `OrderBy`, which skips a `nil` entry and checks `o.Expr`
(in `checkStmt` and in the `GroupConcatExpr` arm). -/
def checkOrderBy [GoStrings] (ctx : Context) (orderBy : List (Option Order)) (r : Record) :
    Bool × Record :=
  match orderBy with
  | [] => (true, r)
  | none :: rest => checkOrderBy ctx rest r
  | some (.mk e _) :: rest =>
    match checkExpr ctx e r with
    | (false, r1) => (false, r1)
    | (true, r1) => checkOrderBy ctx rest r1

/-- The loop over `CaseExpr.Whens`, which skips a `nil` entry and checks
`w.Cond`, then `w.Val`. -/
def checkWhens [GoStrings] (ctx : Context) (whens : List (Option When)) (r : Record) :
    Bool × Record :=
  match whens with
  | [] => (true, r)
  | none :: rest => checkWhens ctx rest r
  | some (.mk cond val) :: rest =>
    match checkExpr ctx cond r with
    | (false, r1) => (false, r1)
    | (true, r1) =>
    match checkExpr ctx val r1 with
    | (false, r2) => (false, r2)
    | (true, r2) => checkWhens ctx rest r2

/-- Go `checkTableExpr`. -/
def checkTableExpr [GoStrings] (ctx : Context) (expr : TableExpr) (r : Record) : Bool × Record :=
  match expr with
  | .nil => (true, r)
  | .AliasedTableExpr e _ => checkSimpleTableExpr ctx e r
  | .ParenTableExpr exprs =>
    match checkTableExprs ctx exprs r with
    | (false, r1) => (false, r1)
    | (true, r1) => (true, r1)
  | .JoinTableExpr leftExpr _ rightExpr on_ =>
    match checkTableExpr ctx leftExpr r with
    | (false, r1) => (false, r1)
    | (true, r1) =>
    match checkTableExpr ctx rightExpr r1 with
    | (false, r2) => (false, r2)
    | (true, r2) =>
    match checkExpr ctx on_ r2 with
    | (false, r3) => (false, r3)
    | (true, r3) => (true, r3)
  | .other => (false, Record.mk "bad table expr")

/-- Go `checkExpr`. -/
def checkExpr [GoStrings] (ctx : Context) (expr : Expr) (r : Record) : Bool × Record :=
  match expr with
  | .nil => (true, r)
  | .other => (false, r)
  | .AndExpr left right =>
    match checkExpr ctx left r with
    | (false, r1) => (false, r1)
    | (true, r1) =>
    match checkExpr ctx right r1 with
    | (false, r2) => (false, r2)
    | (true, r2) => (true, r2)
  | .OrExpr left right =>
    match checkExpr ctx left r with
    | (false, r1) => (false, r1)
    | (true, r1) =>
    match checkExpr ctx right r1 with
    | (false, r2) => (false, r2)
    | (true, r2) => (true, r2)
  | .NotExpr e =>
    match checkExpr ctx e r with
    | (false, r1) => (false, r1)
    | (true, r1) => (true, r1)
  | .ParenExpr e =>
    match checkExpr ctx e r with
    | (false, r1) => (false, r1)
    | (true, r1) => (true, r1)
  | .ComparisonExpr _ left right escape =>
    match checkExpr ctx left r with
    | (false, r1) => (false, r1)
    | (true, r1) =>
    match checkExpr ctx right r1 with
    | (false, r2) => (false, r2)
    | (true, r2) =>
    match checkExpr ctx escape r2 with
    | (false, r3) => (false, r3)
    | (true, r3) => (true, r3)
  | .RangeCond _ left from_ to_ =>
    match checkExpr ctx left r with
    | (false, r1) => (false, r1)
    | (true, r1) =>
    match checkExpr ctx from_ r1 with
    | (false, r2) => (false, r2)
    | (true, r2) =>
    match checkExpr ctx to_ r2 with
    | (false, r3) => (false, r3)
    | (true, r3) => (true, r3)
  | .IsExpr _ e =>
    match checkExpr ctx e r with
    | (false, r1) => (false, r1)
    | (true, r1) => (true, r1)
  | .ExistsExpr (.mk select) =>
    -- `checkExpr(ctx, expr.Subquery, r)` enters the `*sqlparser.Subquery` arm below
    match checkStmt ctx select r with
    | (false, r1) => (false, r1)
    | (true, r1) => (true, r1)
  | .SQLVal _ _ => (true, r)
  | .NullVal => (true, r)
  | .BoolVal _ => (true, r)
  | .ColName _ => (true, r)
  | .ValTuple exprs =>
    match checkExprs ctx exprs r with
    | (false, r1) => (false, r1)
    | (true, r1) => (true, r1)
  | .Subquery (.mk select) =>
    match checkStmt ctx select r with
    | (false, r1) => (false, r1)
    | (true, r1) => (true, r1)
  | .ListArg _ => (true, r)
  | .BinaryExpr _ left right =>
    match checkExpr ctx left r with
    | (false, r1) => (false, r1)
    | (true, r1) =>
    match checkExpr ctx right r1 with
    | (false, r2) => (false, r2)
    | (true, r2) => (true, r2)
  | .UnaryExpr _ e =>
    match checkExpr ctx e r with
    | (false, r1) => (false, r1)
    | (true, r1) => (true, r1)
  | .IntervalExpr e _ =>
    match checkExpr ctx e r with
    | (false, r1) => (false, r1)
    | (true, r1) => (true, r1)
  | .CollateExpr e _ =>
    match checkExpr ctx e r with
    | (false, r1) => (false, r1)
    | (true, r1) => (true, r1)
  | .FuncExpr qualifier name _ exprs =>
    match checkFuncName ctx qualifier.Str name.Str r with
    | (false, r1) => (false, r1)
    | (true, r1) =>
    match checkSelectExprs ctx exprs r1 with
    | (false, r2) => (false, r2)
    | (true, r2) => (true, r2)
  | .CaseExpr e whens else_ =>
    match checkExpr ctx e r with
    | (false, r1) => (false, r1)
    | (true, r1) =>
    match checkExpr ctx else_ r1 with
    | (false, r2) => (false, r2)
    | (true, r2) =>
    match checkWhens ctx whens r2 with
    | (false, r3) => (false, r3)
    | (true, r3) => (true, r3)
  | .ValuesFuncExpr _ => (false, Record.mk "bad values expr")
  | .ConvertExpr e _ =>
    match checkExpr ctx e r with
    | (false, r1) => (false, r1)
    | (true, r1) => (true, r1)
  | .SubstrExpr name from_ to_ =>
    match checkExpr ctx from_ r with
    | (false, r1) => (false, r1)
    | (true, r1) =>
    match checkExpr ctx to_ r1 with
    | (false, r2) => (false, r2)
    | (true, r2) =>
    match checkColName ctx name r2 with
    | (false, r3) => (false, r3)
    | (true, r3) => (true, r3)
  | .ConvertUsingExpr e _ =>
    match checkExpr ctx e r with
    | (false, r1) => (false, r1)
    | (true, r1) => (true, r1)
  | .MatchExpr columns e _ =>
    match checkExpr ctx e r with
    | (false, r1) => (false, r1)
    | (true, r1) =>
    match checkSelectExprs ctx columns r1 with
    | (false, r2) => (false, r2)
    | (true, r2) => (true, r2)
  | .GroupConcatExpr _ exprs orderBy _ =>
    match checkSelectExprs ctx exprs r with
    | (false, r1) => (false, r1)
    | (true, r1) =>
    match checkOrderBy ctx orderBy r1 with
    | (false, r2) => (false, r2)
    | (true, r2) => (true, r2)
  | .Default colName =>
    match checkColNameString ctx colName r with
    | (false, r1) => (false, r1)
    | (true, r1) => (true, r1)

/-- Go `checkSimpleTableExpr`. -/
def checkSimpleTableExpr [GoStrings] (ctx : Context) (expr : SimpleTableExpr) (r : Record) :
    Bool × Record :=
  match expr with
  | .nil => (true, r)
  | .TableName tableName => checkTableName ctx tableName r
  | .Subquery (.mk select) => checkStmt ctx select r
  | .other => (false, Record.mk "bad simple table expr")

/-- Go `checkSelectExpr`. -/
def checkSelectExpr [GoStrings] (ctx : Context) (expr : SelectExpr) (r : Record) : Bool × Record :=
  match expr with
  | .nil => (true, r)
  | .StarExpr tableName => checkTableName ctx tableName r
  | .AliasedExpr e _ => checkExpr ctx e r
  | .Nextval e => checkExpr ctx e r
  | .other => (false, Record.mk "bad select expr")
end

/-- Go `CheckSQL`; the parser `sqlparser.Parse` is a parameter, its error the
error text.  The result is `(allowed, message, err)`; the message is `r.Msg`
as `checkStmt` leaves it. -/
def CheckSQL [GoStrings] (parse : String → Except String Statement) (ctx : Context)
    (sqlQuery : String) : Bool × String × Option String :=
  match parse sqlQuery with
  | .error err => (false, err, some err)
  | .ok stmt =>
    match checkStmt ctx stmt (Record.mk "") with
    | (ok, r) => (ok, r.Msg, none)

/-! ## Example statements -/

/-- Column reference `name`, unqualified. -/
def col (name : String) : Expr :=
  .ColName (ColName.mk (ColIdent.mk name) (TableName.mk (TableIdent.mk "") (TableIdent.mk "")))

/-- Select-item `name` (a column, no alias). -/
def colItem (name : String) : SelectExpr :=
  .AliasedExpr (col name) (ColIdent.mk "")

/-- Table source `qualifier.name`, no alias (`qualifier` may be empty). -/
def table (qualifier name : String) : TableExpr :=
  .AliasedTableExpr (.TableName (TableName.mk (TableIdent.mk name) (TableIdent.mk qualifier)))
    (TableIdent.mk "")

/-- Statement `SELECT items FROM sources` with no other clause. -/
def selectFrom (items : List SelectExpr) (sources : List TableExpr) : Statement :=
  .Select (.mk items sources none [] none [] none)

/-- Context with every allowlist absent. -/
def noLists : Context :=
  Context.mk none none none none none

/-- Statement `SELECT COUNT(*) FROM t`. -/
def selectCountStar : Statement :=
  selectFrom
    [.AliasedExpr
      (.FuncExpr (TableIdent.mk "") (ColIdent.mk "COUNT") false
        [.StarExpr (TableName.mk (TableIdent.mk "") (TableIdent.mk ""))])
      (ColIdent.mk "")]
    [table "" "t"]

/-! ## Sequencing, and the check sites of a tree

What follows is not in `sql.go`: it describes the walk.  `andThen` is the
pattern `if !check(…) { return false }; …` of the Go code; `checkWhere` and
`checkLimit` are the two guarded blocks of `checkStmt`; a `Site` is a node at
which the walk runs a check of its own rather than only descending. -/

/-- Run `k` on the record `a` leaves when `a` returned true; otherwise stop
with `a`. -/
def andThen (a : Bool × Record) (k : Record → Bool × Record) : Bool × Record :=
  match a with
  | (false, r1) => (false, r1)
  | (true, r1) => k r1

/-- The block `if stmt.Where != nil { if !checkExpr(ctx, stmt.Where.Expr, r) { return false } }`
of `checkStmt` (the same for `stmt.Having`). -/
def checkWhere [GoStrings] (ctx : Context) (w : Option Where) (r : Record) : Bool × Record :=
  match w with
  | none => (true, r)
  | some (.mk _ e) => checkExpr ctx e r

/-- The block `if stmt.Limit != nil { … }` of `checkStmt`: offset, then
row count. -/
def checkLimit [GoStrings] (ctx : Context) (l : Option Limit) (r : Record) : Bool × Record :=
  match l with
  | none => (true, r)
  | some (.mk offset rowcount) =>
    andThen (checkExpr ctx offset r) fun r1 =>
    andThen (checkExpr ctx rowcount r1) fun r2 => (true, r2)

/-- A node at which the walk runs a check of its own. -/
inductive Site
  /-- a table name that is the source of an aliased table expression -/
  | tableSource (tableName : TableName)
  /-- the table of a star select-item (empty for a bare star) -/
  | star (tableName : TableName)
  /-- a function call, with its qualifier (ident) and name -/
  | funcCall (qualifier : TableIdent) (name : ColIdent)
  /-- the column of a `SubstrExpr` -/
  | substrColumn (name : ColName)
  /-- the column of a `Default` -/
  | defaultColumn (colName : String)
  /-- a `ValuesFuncExpr` -/
  | valuesFunc (name : ColName)
  /-- an expression of a type `checkExpr` does not name -/
  | otherExpr
  /-- a statement that is not a `Select` -/
  | otherStmt
  /-- a table expression of a type `checkTableExpr` does not name -/
  | otherTableExpr
  /-- a simple table expression of a type `checkSimpleTableExpr` does not name -/
  | otherSimpleTableExpr
  /-- a select expression of a type `checkSelectExpr` does not name -/
  | otherSelectExpr
deriving DecidableEq, Repr

/-- What the walk does at a site. -/
def Site.run [GoStrings] (ctx : Context) (s : Site) (r : Record) : Bool × Record :=
  match s with
  | .tableSource tableName => checkTableName ctx tableName r
  | .star tableName => checkTableName ctx tableName r
  | .funcCall qualifier name => checkFuncName ctx qualifier.Str name.Str r
  | .substrColumn name => checkColName ctx name r
  | .defaultColumn colName => checkColNameString ctx colName r
  | .valuesFunc _ => (false, Record.mk "bad values expr")
  | .otherExpr => (false, r)
  | .otherStmt => (false, Record.mk "bad stmt operation")
  | .otherTableExpr => (false, Record.mk "bad table expr")
  | .otherSimpleTableExpr => (false, Record.mk "bad simple table expr")
  | .otherSelectExpr => (false, Record.mk "bad select expr")

/-- Run the sites of a list in order, stopping at the first that fails. -/
def runSites [GoStrings] (ctx : Context) (sites : List Site) (r : Record) : Bool × Record :=
  match sites with
  | [] => (true, r)
  | s :: rest => andThen (s.run ctx r) fun r1 => runSites ctx rest r1

mutual
/-- The sites of a statement, in the order of the walk.  The whole tree is
listed, also the parts behind a site that always fails (the operands of a
`Union`, the body of a `ParenSelect`). -/
def sitesStmt (stmt : Statement) : List Site :=
  match stmt with
  | .nil => []
  | .Select (.mk selectExprs from_ where_ groupBy having orderBy limit) =>
    sitesSelectExprs selectExprs ++
    (sitesTableExprs from_ ++
    ((match where_ with
      | none => []
      | some (.mk _ e) => sitesExpr e) ++
    (sitesExprs groupBy ++
    ((match having with
      | none => []
      | some (.mk _ e) => sitesExpr e) ++
    (sitesOrderBy orderBy ++
    (match limit with
      | none => []
      | some (.mk offset rowcount) => sitesExpr offset ++ sitesExpr rowcount))))))
  | .Union _ left right orderBy limit =>
    Site.otherStmt ::
    (sitesStmt left ++
    (sitesStmt right ++
    (sitesOrderBy orderBy ++
    (match limit with
      | none => []
      | some (.mk offset rowcount) => sitesExpr offset ++ sitesExpr rowcount))))
  | .ParenSelect select => Site.otherStmt :: sitesStmt select
  | .Other _ => [Site.otherStmt]

/-- The sites of a list of select expressions. -/
def sitesSelectExprs (exprs : List SelectExpr) : List Site :=
  match exprs with
  | [] => []
  | i :: rest => sitesSelectExpr i ++ sitesSelectExprs rest

/-- The sites of a list of table expressions. -/
def sitesTableExprs (exprs : List TableExpr) : List Site :=
  match exprs with
  | [] => []
  | i :: rest => sitesTableExpr i ++ sitesTableExprs rest

/-- The sites of a list of expressions. -/
def sitesExprs (exprs : List Expr) : List Site :=
  match exprs with
  | [] => []
  | g :: rest => sitesExpr g ++ sitesExprs rest

/-- The sites of an `OrderBy`. -/
def sitesOrderBy (orderBy : List (Option Order)) : List Site :=
  match orderBy with
  | [] => []
  | none :: rest => sitesOrderBy rest
  | some (.mk e _) :: rest => sitesExpr e ++ sitesOrderBy rest

/-- The sites of the `Whens` of a `CaseExpr`. -/
def sitesWhens (whens : List (Option When)) : List Site :=
  match whens with
  | [] => []
  | none :: rest => sitesWhens rest
  | some (.mk cond val) :: rest => sitesExpr cond ++ (sitesExpr val ++ sitesWhens rest)

/-- The sites of a table expression. -/
def sitesTableExpr (expr : TableExpr) : List Site :=
  match expr with
  | .nil => []
  | .AliasedTableExpr e _ => sitesSimpleTableExpr e
  | .ParenTableExpr exprs => sitesTableExprs exprs
  | .JoinTableExpr leftExpr _ rightExpr on_ =>
    sitesTableExpr leftExpr ++ (sitesTableExpr rightExpr ++ sitesExpr on_)
  | .other => [Site.otherTableExpr]

/-- The sites of an expression. -/
def sitesExpr (expr : Expr) : List Site :=
  match expr with
  | .nil => []
  | .other => [Site.otherExpr]
  | .AndExpr left right => sitesExpr left ++ sitesExpr right
  | .OrExpr left right => sitesExpr left ++ sitesExpr right
  | .NotExpr e => sitesExpr e
  | .ParenExpr e => sitesExpr e
  | .ComparisonExpr _ left right escape =>
    sitesExpr left ++ (sitesExpr right ++ sitesExpr escape)
  | .RangeCond _ left from_ to_ => sitesExpr left ++ (sitesExpr from_ ++ sitesExpr to_)
  | .IsExpr _ e => sitesExpr e
  | .ExistsExpr (.mk select) => sitesStmt select
  | .SQLVal _ _ => []
  | .NullVal => []
  | .BoolVal _ => []
  | .ColName _ => []
  | .ValTuple exprs => sitesExprs exprs
  | .Subquery (.mk select) => sitesStmt select
  | .ListArg _ => []
  | .BinaryExpr _ left right => sitesExpr left ++ sitesExpr right
  | .UnaryExpr _ e => sitesExpr e
  | .IntervalExpr e _ => sitesExpr e
  | .CollateExpr e _ => sitesExpr e
  | .FuncExpr qualifier name _ exprs =>
    Site.funcCall qualifier name :: sitesSelectExprs exprs
  | .CaseExpr e whens else_ => sitesExpr e ++ (sitesExpr else_ ++ sitesWhens whens)
  | .ValuesFuncExpr name => [Site.valuesFunc name]
  | .ConvertExpr e _ => sitesExpr e
  | .SubstrExpr name from_ to_ =>
    sitesExpr from_ ++ (sitesExpr to_ ++ [Site.substrColumn name])
  | .ConvertUsingExpr e _ => sitesExpr e
  | .MatchExpr columns e _ => sitesExpr e ++ sitesSelectExprs columns
  | .GroupConcatExpr _ exprs orderBy _ => sitesSelectExprs exprs ++ sitesOrderBy orderBy
  | .Default colName => [Site.defaultColumn colName]

/-- The sites of a simple table expression. -/
def sitesSimpleTableExpr (expr : SimpleTableExpr) : List Site :=
  match expr with
  | .nil => []
  | .TableName tableName => [Site.tableSource tableName]
  | .Subquery (.mk select) => sitesStmt select
  | .other => [Site.otherSimpleTableExpr]

/-- The sites of a select expression. -/
def sitesSelectExpr (expr : SelectExpr) : List Site :=
  match expr with
  | .nil => []
  | .StarExpr tableName => [Site.star tableName]
  | .AliasedExpr e _ => sitesExpr e
  | .Nextval e => sitesExpr e
  | .other => [Site.otherSelectExpr]
end

/-- Statement `SELECT VALUES(x) FROM t`. -/
def selectValues : Statement :=
  selectFrom
    [.AliasedExpr
      (.ValuesFuncExpr
        (ColName.mk (ColIdent.mk "x") (TableName.mk (TableIdent.mk "") (TableIdent.mk ""))))
      (ColIdent.mk "")]
    [table "" "t"]

/-- Statement `SELECT a FROM t WHERE id IN (SELECT VALUES(x) FROM u)`. -/
def selectValuesNested : Statement :=
  .Select (.mk [colItem "a"] [table "" "t"]
    (some (.mk "where"
      (.ComparisonExpr "in" (col "id") (.Subquery (.mk
        (selectFrom
          [.AliasedExpr
            (.ValuesFuncExpr
              (ColName.mk (ColIdent.mk "x")
                (TableName.mk (TableIdent.mk "") (TableIdent.mk ""))))
            (ColIdent.mk "")]
          [table "" "u"]))) .nil)))
    [] none [] none)

/-- Statement
`SELECT t.* FROM a JOIN (SELECT * FROM b) AS s ON EXISTS (SELECT 1 FROM c)`. -/
def selectJoined : Statement :=
  selectFrom
    [.StarExpr (TableName.mk (TableIdent.mk "t") (TableIdent.mk ""))]
    [.JoinTableExpr (table "" "a") "join"
      (.AliasedTableExpr
        (.Subquery (.mk
          (selectFrom [.StarExpr (TableName.mk (TableIdent.mk "") (TableIdent.mk ""))]
            [table "" "b"])))
        (TableIdent.mk "s"))
      (.ExistsExpr (.mk
        (selectFrom [.AliasedExpr (.SQLVal 1 "1") (ColIdent.mk "")] [table "" "c"])))]

/-- The sites of a `Where` or `Having` clause (none when the clause is absent). -/
def sitesWhere (w : Option Where) : List Site :=
  match w with
  | none => []
  | some (.mk _ e) => sitesExpr e

/-- The sites of a `Limit` clause (none when the clause is absent). -/
def sitesLimit (l : Option Limit) : List Site :=
  match l with
  | none => []
  | some (.mk offset rowcount) => sitesExpr offset ++ sitesExpr rowcount

/-! ## Lists of checks, and the order on configurations -/

/-- Run the checks of a list in order, each on the record the one before it
leaves, stopping at the first that fails. -/
def runChecks (checks : List (Record → Bool × Record)) (r : Record) : Bool × Record :=
  match checks with
  | [] => (true, r)
  | c :: rest => andThen (c r) fun r1 => runChecks rest r1

/-- The checks of a `Where` or `Having` clause: none when the clause is absent,
else `checkExpr` on its expression. -/
def whereChecks [GoStrings] (ctx : Context) (w : Option Where) : List (Record → Bool × Record) :=
  match w with
  | none => []
  | some (.mk _ e) => [checkExpr ctx e]

/-- The checks of an `OrderBy`: `checkExpr` on the expression of every entry
that is not nil. -/
def orderByChecks [GoStrings] (ctx : Context) (orderBy : List (Option Order)) :
    List (Record → Bool × Record) :=
  match orderBy with
  | [] => []
  | none :: rest => orderByChecks ctx rest
  | some (.mk e _) :: rest => checkExpr ctx e :: orderByChecks ctx rest

/-- The checks of a `Limit` clause: none when the clause is absent, else
`checkExpr` on the offset, then on the row count. -/
def limitChecks [GoStrings] (ctx : Context) (l : Option Limit) : List (Record → Bool × Record) :=
  match l with
  | none => []
  | some (.mk offset rowcount) => [checkExpr ctx offset, checkExpr ctx rowcount]

/-- The checks of a SELECT in the order the specification lists them:
select-items, FROM table-sources, WHERE, GROUP BY expressions, HAVING,
ORDER BY expressions, LIMIT offset, LIMIT row count. -/
def clauseChecks [GoStrings] (ctx : Context) (select : Select) : List (Record → Bool × Record) :=
  match select with
  | .mk selectExprs from_ where_ groupBy having orderBy limit =>
    selectExprs.map (checkSelectExpr ctx) ++
    (from_.map (checkTableExpr ctx) ++
    (whereChecks ctx where_ ++
    (groupBy.map (checkExpr ctx) ++
    (whereChecks ctx having ++
    (orderByChecks ctx orderBy ++
    limitChecks ctx limit)))))

/-- Two values of one allowlist slot: both absent, or both present with every
entry of the first an entry of the second. -/
def slotLe (a b : Option (List String)) : Prop :=
  match a, b with
  | none, none => True
  | some l, some l2 => ∀ x ∈ l, x ∈ l2
  | none, some _ => False
  | some _, none => False

/-- Configuration `c2` has the same slots present as `c` and every present
allowlist of `c` is included in that of `c2`. -/
def Context.le (c c2 : Context) : Prop :=
  slotLe c.allowTableName c2.allowTableName ∧
  slotLe c.allowDBName c2.allowDBName ∧
  slotLe c.allowColName c2.allowColName ∧
  slotLe c.allowFuncIdent c2.allowFuncIdent ∧
  slotLe c.allowFuncName c2.allowFuncName

/-- A site that fails without writing a message: an expression of a type
`checkExpr` does not name, or a function call whose ident and name are both
empty. -/
def Site.silent (s : Site) : Bool :=
  match s with
  | .otherExpr => true
  | .funcCall qualifier name => qualifier.Str.length == 0 && name.Str.length == 0
  | _ => false

/-- Statement
`SELECT a FROM t WHERE id IN (SELECT id FROM u WHERE u.id IN (SELECT id FROM v))`. -/
def selectNested : Statement :=
  .Select (.mk [colItem "a"] [table "" "t"]
    (some (.mk "where"
      (.ComparisonExpr "in" (col "id") (.Subquery (.mk
        (.Select (.mk [colItem "id"] [table "" "u"]
          (some (.mk "where"
            (.ComparisonExpr "in"
              (.ColName (ColName.mk (ColIdent.mk "id")
                (TableName.mk (TableIdent.mk "u") (TableIdent.mk ""))))
              (.Subquery (.mk (selectFrom [colItem "id"] [table "" "v"])))
              .nil)))
          [] none [] none)))) .nil)))
    [] none [] none)

/-- Statement `SELECT a FROM t WHERE e`, for an expression `e`. -/
def selectWhere (e : Expr) : Statement :=
  .Select (.mk [colItem "a"] [table "" "t"] (some (.mk "where" e)) [] none [] none)

/-! ## Basic facts -/

theorem InList_eq_true_iff {T : Type} [DecidableEq T] (lst : List T) (element : T) :
    InList lst element = true ↔ element ∈ lst := by
  induction lst with
  | nil => simp [InList]
  | cons i rest ih =>
    by_cases h : i = element
    · simp [InList, h]
    · have h2 : ¬ element = i := fun e => h e.symm
      simp [InList, h, h2, ih]

theorem InList_eq_false_iff {T : Type} [DecidableEq T] (lst : List T) (element : T) :
    InList lst element = false ↔ element ∉ lst := by
  rw [← InList_eq_true_iff]
  cases InList lst element <;> simp

theorem length_eq_zero_iff (s : String) : s.length = 0 ↔ s = "" := by
  constructor
  · intro h
    have h1 : s.data = [] := List.length_eq_zero.mp h
    exact String.ext h1
  · intro h
    subst h
    rfl

theorem ToUpper_of_ascii [GoStrings] (s t : String) (hs : ∀ c ∈ s.data, c.toNat < 128)
    (ht : asciiToUpper s = t) : ToUpper s = t :=
  (ToUpper_ascii s hs).trans ht

theorem TableIdent.IsEmpty_iff (node : TableIdent) : node.IsEmpty = true ↔ node.v = "" := by
  simp [TableIdent.IsEmpty]

/-! ## Sequencing -/

theorem andThen_ret (a : Bool × Record) : andThen a (fun r => (true, r)) = a := by
  rcases a with ⟨b, r⟩
  cases b <;> rfl

theorem andThen_of_false {a : Bool × Record} (k : Record → Bool × Record)
    (h : a.1 = false) : andThen a k = a := by
  rcases a with ⟨b, r⟩
  cases b
  · rfl
  · cases h

theorem andThen_of_true {a : Bool × Record} (k : Record → Bool × Record)
    (h : a.1 = true) : andThen a k = k a.2 := by
  rcases a with ⟨b, r⟩
  cases b
  · cases h
  · rfl

theorem andThen_fst_eq_true_iff (a : Bool × Record) (k : Record → Bool × Record) :
    (andThen a k).1 = true ↔ a.1 = true ∧ (k a.2).1 = true := by
  rcases a with ⟨b, r⟩
  cases b <;> simp [andThen]

theorem andThen_assoc (a : Bool × Record) (k1 k2 : Record → Bool × Record) :
    andThen (andThen a k1) k2 = andThen a (fun r => andThen (k1 r) k2) := by
  rcases a with ⟨b, r⟩
  cases b <;> rfl

theorem runSites_nil [GoStrings] (ctx : Context) : runSites ctx [] = fun r => (true, r) := rfl

theorem runSites_cons [GoStrings] (ctx : Context) (s : Site) (rest : List Site) :
    runSites ctx (s :: rest) = fun r => andThen (s.run ctx r) (runSites ctx rest) := rfl

theorem runSites_singleton [GoStrings] (ctx : Context) (s : Site) (r : Record) :
    runSites ctx [s] r = s.run ctx r := by
  show andThen (s.run ctx r) (fun r1 => (true, r1)) = _
  exact andThen_ret _

theorem runSites_append [GoStrings] (ctx : Context) (xs ys : List Site) :
    runSites ctx (xs ++ ys) = fun r => andThen (runSites ctx xs r) (runSites ctx ys) := by
  funext r
  induction xs generalizing r with
  | nil => rfl
  | cons s rest ih =>
    show andThen (s.run ctx r) (fun r1 => runSites ctx (rest ++ ys) r1) = _
    rw [runSites_cons, andThen_assoc]
    congr 1
    funext r1
    exact ih r1

theorem sitesStmt_Select (selectExprs : List SelectExpr) (from_ : List TableExpr)
    (where_ : Option Where) (groupBy : List Expr) (having : Option Where)
    (orderBy : List (Option Order)) (limit : Option Limit) :
    sitesStmt (.Select (.mk selectExprs from_ where_ groupBy having orderBy limit)) =
      sitesSelectExprs selectExprs ++ (sitesTableExprs from_ ++ (sitesWhere where_ ++
        (sitesExprs groupBy ++ (sitesWhere having ++ (sitesOrderBy orderBy ++
          sitesLimit limit))))) := by
  rcases where_ with _ | ⟨_, _⟩ <;> rcases having with _ | ⟨_, _⟩ <;>
    rcases limit with _ | ⟨_, _⟩ <;> rfl

/-! ## The walk, arm by arm -/

theorem checkExpr_nil [GoStrings] (ctx : Context) (r : Record) :
    checkExpr ctx .nil r = (true, r) := rfl

theorem checkExpr_other [GoStrings] (ctx : Context) (r : Record) :
    checkExpr ctx .other r = (false, r) := rfl

theorem checkExpr_AndExpr [GoStrings] (ctx : Context) (left right : Expr) (r : Record) :
    checkExpr ctx (.AndExpr left right) r =
      andThen (checkExpr ctx left r) fun r1 =>
      andThen (checkExpr ctx right r1) fun r2 =>
      (true, r2) := rfl

theorem checkExpr_OrExpr [GoStrings] (ctx : Context) (left right : Expr) (r : Record) :
    checkExpr ctx (.OrExpr left right) r =
      andThen (checkExpr ctx left r) fun r1 =>
      andThen (checkExpr ctx right r1) fun r2 =>
      (true, r2) := rfl

theorem checkExpr_NotExpr [GoStrings] (ctx : Context) (e : Expr) (r : Record) :
    checkExpr ctx (.NotExpr e) r =
      andThen (checkExpr ctx e r) fun r1 =>
      (true, r1) := rfl

theorem checkExpr_ParenExpr [GoStrings] (ctx : Context) (e : Expr) (r : Record) :
    checkExpr ctx (.ParenExpr e) r =
      andThen (checkExpr ctx e r) fun r1 =>
      (true, r1) := rfl

theorem checkExpr_ComparisonExpr [GoStrings] (ctx : Context) (operator : String) (left right escape : Expr) (r : Record) :
    checkExpr ctx (.ComparisonExpr operator left right escape) r =
      andThen (checkExpr ctx left r) fun r1 =>
      andThen (checkExpr ctx right r1) fun r2 =>
      andThen (checkExpr ctx escape r2) fun r3 =>
      (true, r3) := rfl

theorem checkExpr_RangeCond [GoStrings] (ctx : Context) (operator : String) (left from_ to_ : Expr) (r : Record) :
    checkExpr ctx (.RangeCond operator left from_ to_) r =
      andThen (checkExpr ctx left r) fun r1 =>
      andThen (checkExpr ctx from_ r1) fun r2 =>
      andThen (checkExpr ctx to_ r2) fun r3 =>
      (true, r3) := rfl

theorem checkExpr_IsExpr [GoStrings] (ctx : Context) (operator : String) (e : Expr) (r : Record) :
    checkExpr ctx (.IsExpr operator e) r =
      andThen (checkExpr ctx e r) fun r1 =>
      (true, r1) := rfl

theorem checkExpr_ExistsExpr [GoStrings] (ctx : Context) (select : Statement) (r : Record) :
    checkExpr ctx (.ExistsExpr (.mk select)) r =
      andThen (checkStmt ctx select r) fun r1 =>
      (true, r1) := rfl

theorem checkExpr_SQLVal [GoStrings] (ctx : Context) (typ : Nat) (val : String) (r : Record) :
    checkExpr ctx (.SQLVal typ val) r = (true, r) := rfl

theorem checkExpr_NullVal [GoStrings] (ctx : Context) (r : Record) :
    checkExpr ctx .NullVal r = (true, r) := rfl

theorem checkExpr_BoolVal [GoStrings] (ctx : Context) (b : Bool) (r : Record) :
    checkExpr ctx (.BoolVal b) r = (true, r) := rfl

theorem checkExpr_ColName [GoStrings] (ctx : Context) (c : ColName) (r : Record) :
    checkExpr ctx (.ColName c) r = (true, r) := rfl

theorem checkExpr_ValTuple [GoStrings] (ctx : Context) (exprs : List Expr) (r : Record) :
    checkExpr ctx (.ValTuple exprs) r =
      andThen (checkExprs ctx exprs r) fun r1 =>
      (true, r1) := rfl

theorem checkExpr_Subquery [GoStrings] (ctx : Context) (select : Statement) (r : Record) :
    checkExpr ctx (.Subquery (.mk select)) r =
      andThen (checkStmt ctx select r) fun r1 =>
      (true, r1) := rfl

theorem checkExpr_ListArg [GoStrings] (ctx : Context) (arg : String) (r : Record) :
    checkExpr ctx (.ListArg arg) r = (true, r) := rfl

theorem checkExpr_BinaryExpr [GoStrings] (ctx : Context) (operator : String) (left right : Expr) (r : Record) :
    checkExpr ctx (.BinaryExpr operator left right) r =
      andThen (checkExpr ctx left r) fun r1 =>
      andThen (checkExpr ctx right r1) fun r2 =>
      (true, r2) := rfl

theorem checkExpr_UnaryExpr [GoStrings] (ctx : Context) (operator : String) (e : Expr) (r : Record) :
    checkExpr ctx (.UnaryExpr operator e) r =
      andThen (checkExpr ctx e r) fun r1 =>
      (true, r1) := rfl

theorem checkExpr_IntervalExpr [GoStrings] (ctx : Context) (e : Expr) (unit : String) (r : Record) :
    checkExpr ctx (.IntervalExpr e unit) r =
      andThen (checkExpr ctx e r) fun r1 =>
      (true, r1) := rfl

theorem checkExpr_CollateExpr [GoStrings] (ctx : Context) (e : Expr) (charset : String) (r : Record) :
    checkExpr ctx (.CollateExpr e charset) r =
      andThen (checkExpr ctx e r) fun r1 =>
      (true, r1) := rfl

theorem checkExpr_FuncExpr [GoStrings] (ctx : Context) (qualifier : TableIdent) (name : ColIdent) (distinct : Bool)
    (exprs : List SelectExpr) (r : Record) :
    checkExpr ctx (.FuncExpr qualifier name distinct exprs) r =
      andThen (checkFuncName ctx qualifier.Str name.Str r) fun r1 =>
      andThen (checkSelectExprs ctx exprs r1) fun r2 =>
      (true, r2) := rfl

theorem checkExpr_CaseExpr [GoStrings] (ctx : Context) (e : Expr) (whens : List (Option When)) (else_ : Expr) (r : Record) :
    checkExpr ctx (.CaseExpr e whens else_) r =
      andThen (checkExpr ctx e r) fun r1 =>
      andThen (checkExpr ctx else_ r1) fun r2 =>
      andThen (checkWhens ctx whens r2) fun r3 =>
      (true, r3) := rfl

theorem checkExpr_ValuesFuncExpr [GoStrings] (ctx : Context) (name : ColName) (r : Record) :
    checkExpr ctx (.ValuesFuncExpr name) r = (false, Record.mk "bad values expr") := rfl

theorem checkExpr_ConvertExpr [GoStrings] (ctx : Context) (e : Expr) (typ : String) (r : Record) :
    checkExpr ctx (.ConvertExpr e typ) r =
      andThen (checkExpr ctx e r) fun r1 =>
      (true, r1) := rfl

theorem checkExpr_SubstrExpr [GoStrings] (ctx : Context) (name : ColName) (from_ to_ : Expr) (r : Record) :
    checkExpr ctx (.SubstrExpr name from_ to_) r =
      andThen (checkExpr ctx from_ r) fun r1 =>
      andThen (checkExpr ctx to_ r1) fun r2 =>
      andThen (checkColName ctx name r2) fun r3 =>
      (true, r3) := rfl

theorem checkExpr_ConvertUsingExpr [GoStrings] (ctx : Context) (e : Expr) (typ : String) (r : Record) :
    checkExpr ctx (.ConvertUsingExpr e typ) r =
      andThen (checkExpr ctx e r) fun r1 =>
      (true, r1) := rfl

theorem checkExpr_MatchExpr [GoStrings] (ctx : Context) (columns : List SelectExpr) (e : Expr) (opt : String) (r : Record) :
    checkExpr ctx (.MatchExpr columns e opt) r =
      andThen (checkExpr ctx e r) fun r1 =>
      andThen (checkSelectExprs ctx columns r1) fun r2 =>
      (true, r2) := rfl

theorem checkExpr_GroupConcatExpr [GoStrings] (ctx : Context) (distinct : String) (exprs : List SelectExpr)
    (orderBy : List (Option Order)) (separator : String) (r : Record) :
    checkExpr ctx (.GroupConcatExpr distinct exprs orderBy separator) r =
      andThen (checkSelectExprs ctx exprs r) fun r1 =>
      andThen (checkOrderBy ctx orderBy r1) fun r2 =>
      (true, r2) := rfl

theorem checkExpr_Default [GoStrings] (ctx : Context) (colName : String) (r : Record) :
    checkExpr ctx (.Default colName) r =
      andThen (checkColNameString ctx colName r) fun r1 =>
      (true, r1) := rfl

theorem checkStmt_nil [GoStrings] (ctx : Context) (r : Record) :
    checkStmt ctx .nil r = (true, r) := rfl

theorem checkStmt_Select [GoStrings] (ctx : Context) (selectExprs : List SelectExpr) (from_ : List TableExpr)
    (where_ : Option Where) (groupBy : List Expr) (having : Option Where)
    (orderBy : List (Option Order)) (limit : Option Limit) (r : Record) :
    checkStmt ctx (.Select (.mk selectExprs from_ where_ groupBy having orderBy limit)) r =
      andThen (checkSelectExprs ctx selectExprs r) fun r1 =>
      andThen (checkTableExprs ctx from_ r1) fun r2 =>
      andThen (checkWhere ctx where_ r2) fun r3 =>
      andThen (checkExprs ctx groupBy r3) fun r4 =>
      andThen (checkWhere ctx having r4) fun r5 =>
      andThen (checkOrderBy ctx orderBy r5) fun r6 =>
      checkLimit ctx limit r6 := by
  rcases where_ with _ | ⟨_, _⟩ <;> rcases having with _ | ⟨_, _⟩ <;>
    rcases limit with _ | ⟨_, _⟩ <;> rfl

theorem checkStmt_Union [GoStrings] (ctx : Context) (typ : String) (left right : Statement)
    (orderBy : List (Option Order)) (limit : Option Limit) (r : Record) :
    checkStmt ctx (.Union typ left right orderBy limit) r =
      (false, Record.mk "bad stmt operation") := rfl

theorem checkStmt_ParenSelect [GoStrings] (ctx : Context) (select : Statement) (r : Record) :
    checkStmt ctx (.ParenSelect select) r = (false, Record.mk "bad stmt operation") := rfl

theorem checkStmt_Other [GoStrings] (ctx : Context) (kind : StmtKind) (r : Record) :
    checkStmt ctx (.Other kind) r = (false, Record.mk "bad stmt operation") := rfl

theorem checkSelectExprs_nil [GoStrings] (ctx : Context) (r : Record) :
    checkSelectExprs ctx [] r = (true, r) := rfl

theorem checkSelectExprs_cons [GoStrings] (ctx : Context) (i : SelectExpr) (rest : List SelectExpr) (r : Record) :
    checkSelectExprs ctx (i :: rest) r =
      andThen (checkSelectExpr ctx i r) fun r1 =>
      checkSelectExprs ctx rest r1 := rfl

theorem checkTableExprs_nil [GoStrings] (ctx : Context) (r : Record) :
    checkTableExprs ctx [] r = (true, r) := rfl

theorem checkTableExprs_cons [GoStrings] (ctx : Context) (i : TableExpr) (rest : List TableExpr) (r : Record) :
    checkTableExprs ctx (i :: rest) r =
      andThen (checkTableExpr ctx i r) fun r1 =>
      checkTableExprs ctx rest r1 := rfl

theorem checkExprs_nil [GoStrings] (ctx : Context) (r : Record) :
    checkExprs ctx [] r = (true, r) := rfl

theorem checkExprs_cons [GoStrings] (ctx : Context) (g : Expr) (rest : List Expr) (r : Record) :
    checkExprs ctx (g :: rest) r =
      andThen (checkExpr ctx g r) fun r1 =>
      checkExprs ctx rest r1 := rfl

theorem checkOrderBy_nil [GoStrings] (ctx : Context) (r : Record) :
    checkOrderBy ctx [] r = (true, r) := rfl

theorem checkOrderBy_none [GoStrings] (ctx : Context) (rest : List (Option Order)) (r : Record) :
    checkOrderBy ctx (none :: rest) r = checkOrderBy ctx rest r := rfl

theorem checkOrderBy_some [GoStrings] (ctx : Context) (e : Expr) (direction : String) (rest : List (Option Order)) (r : Record) :
    checkOrderBy ctx (some (.mk e direction) :: rest) r =
      andThen (checkExpr ctx e r) fun r1 =>
      checkOrderBy ctx rest r1 := rfl

theorem checkWhens_nil [GoStrings] (ctx : Context) (r : Record) :
    checkWhens ctx [] r = (true, r) := rfl

theorem checkWhens_none [GoStrings] (ctx : Context) (rest : List (Option When)) (r : Record) :
    checkWhens ctx (none :: rest) r = checkWhens ctx rest r := rfl

theorem checkWhens_some [GoStrings] (ctx : Context) (cond val : Expr) (rest : List (Option When)) (r : Record) :
    checkWhens ctx (some (.mk cond val) :: rest) r =
      andThen (checkExpr ctx cond r) fun r1 =>
      andThen (checkExpr ctx val r1) fun r2 =>
      checkWhens ctx rest r2 := rfl

theorem checkTableExpr_nil [GoStrings] (ctx : Context) (r : Record) :
    checkTableExpr ctx .nil r = (true, r) := rfl

theorem checkTableExpr_AliasedTableExpr [GoStrings] (ctx : Context) (e : SimpleTableExpr) (as_ : TableIdent) (r : Record) :
    checkTableExpr ctx (.AliasedTableExpr e as_) r = checkSimpleTableExpr ctx e r := rfl

theorem checkTableExpr_ParenTableExpr [GoStrings] (ctx : Context) (exprs : List TableExpr) (r : Record) :
    checkTableExpr ctx (.ParenTableExpr exprs) r =
      andThen (checkTableExprs ctx exprs r) fun r1 =>
      (true, r1) := rfl

theorem checkTableExpr_JoinTableExpr [GoStrings] (ctx : Context) (leftExpr : TableExpr) (join : String) (rightExpr : TableExpr)
    (on_ : Expr) (r : Record) :
    checkTableExpr ctx (.JoinTableExpr leftExpr join rightExpr on_) r =
      andThen (checkTableExpr ctx leftExpr r) fun r1 =>
      andThen (checkTableExpr ctx rightExpr r1) fun r2 =>
      andThen (checkExpr ctx on_ r2) fun r3 =>
      (true, r3) := rfl

theorem checkTableExpr_other [GoStrings] (ctx : Context) (r : Record) :
    checkTableExpr ctx .other r = (false, Record.mk "bad table expr") := rfl

theorem checkSimpleTableExpr_nil [GoStrings] (ctx : Context) (r : Record) :
    checkSimpleTableExpr ctx .nil r = (true, r) := rfl

theorem checkSimpleTableExpr_TableName [GoStrings] (ctx : Context) (tableName : TableName) (r : Record) :
    checkSimpleTableExpr ctx (.TableName tableName) r = checkTableName ctx tableName r := rfl

theorem checkSimpleTableExpr_Subquery [GoStrings] (ctx : Context) (select : Statement) (r : Record) :
    checkSimpleTableExpr ctx (.Subquery (.mk select)) r = checkStmt ctx select r := rfl

theorem checkSimpleTableExpr_other [GoStrings] (ctx : Context) (r : Record) :
    checkSimpleTableExpr ctx .other r = (false, Record.mk "bad simple table expr") := rfl

theorem checkSelectExpr_nil [GoStrings] (ctx : Context) (r : Record) :
    checkSelectExpr ctx .nil r = (true, r) := rfl

theorem checkSelectExpr_StarExpr [GoStrings] (ctx : Context) (tableName : TableName) (r : Record) :
    checkSelectExpr ctx (.StarExpr tableName) r = checkTableName ctx tableName r := rfl

theorem checkSelectExpr_AliasedExpr [GoStrings] (ctx : Context) (e : Expr) (as_ : ColIdent) (r : Record) :
    checkSelectExpr ctx (.AliasedExpr e as_) r = checkExpr ctx e r := rfl

theorem checkSelectExpr_Nextval [GoStrings] (ctx : Context) (e : Expr) (r : Record) :
    checkSelectExpr ctx (.Nextval e) r = checkExpr ctx e r := rfl

theorem checkSelectExpr_other [GoStrings] (ctx : Context) (r : Record) :
    checkSelectExpr ctx .other r = (false, Record.mk "bad select expr") := rfl

/-! ## The walk is the run of the sites -/

mutual
theorem checkStmt_eq_runSites [GoStrings] (ctx : Context) :
    ∀ (stmt : Statement) (r : Record), checkStmt ctx stmt r = runSites ctx (sitesStmt stmt) r
  | .nil, _ => rfl
  | .Select (.mk selectExprs from_ where_ groupBy having orderBy limit), r => by
    have h1 := checkSelectExprs_eq_runSites ctx selectExprs
    have h2 := checkTableExprs_eq_runSites ctx from_
    have h3 : ∀ r0, checkWhere ctx where_ r0 = runSites ctx (sitesWhere where_) r0 := by
      intro r0
      match where_ with
      | none => rfl
      | some (.mk _ e) => exact checkExpr_eq_runSites ctx e r0
    have h4 := checkExprs_eq_runSites ctx groupBy
    have h5 : ∀ r0, checkWhere ctx having r0 = runSites ctx (sitesWhere having) r0 := by
      intro r0
      match having with
      | none => rfl
      | some (.mk _ e) => exact checkExpr_eq_runSites ctx e r0
    have h6 := checkOrderBy_eq_runSites ctx orderBy
    have h7 : ∀ r0, checkLimit ctx limit r0 = runSites ctx (sitesLimit limit) r0 := by
      intro r0
      match limit with
      | none => rfl
      | some (.mk offset rowcount) =>
        have h8 := checkExpr_eq_runSites ctx offset
        have h9 := checkExpr_eq_runSites ctx rowcount
        simp only [checkLimit, sitesLimit, runSites_append, h8, h9, andThen_ret]
    simp only [checkStmt_Select, sitesStmt_Select, runSites_append, h1, h2, h3, h4, h5, h6, h7]
  | .Union _ _ _ _ _, _ => rfl
  | .ParenSelect _, _ => rfl
  | .Other _, _ => rfl

theorem checkSelectExprs_eq_runSites [GoStrings] (ctx : Context) :
    ∀ (exprs : List SelectExpr) (r : Record),
      checkSelectExprs ctx exprs r = runSites ctx (sitesSelectExprs exprs) r
  | [], _ => rfl
  | i :: rest, r => by
    show andThen (checkSelectExpr ctx i r) (fun r1 => checkSelectExprs ctx rest r1) =
      runSites ctx (sitesSelectExpr i ++ sitesSelectExprs rest) r
    have h1 := checkSelectExpr_eq_runSites ctx i
    have h2 := checkSelectExprs_eq_runSites ctx rest
    simp only [runSites_append, h1, h2]

theorem checkTableExprs_eq_runSites [GoStrings] (ctx : Context) :
    ∀ (exprs : List TableExpr) (r : Record),
      checkTableExprs ctx exprs r = runSites ctx (sitesTableExprs exprs) r
  | [], _ => rfl
  | i :: rest, r => by
    show andThen (checkTableExpr ctx i r) (fun r1 => checkTableExprs ctx rest r1) =
      runSites ctx (sitesTableExpr i ++ sitesTableExprs rest) r
    have h1 := checkTableExpr_eq_runSites ctx i
    have h2 := checkTableExprs_eq_runSites ctx rest
    simp only [runSites_append, h1, h2]

theorem checkExprs_eq_runSites [GoStrings] (ctx : Context) :
    ∀ (exprs : List Expr) (r : Record),
      checkExprs ctx exprs r = runSites ctx (sitesExprs exprs) r
  | [], _ => rfl
  | g :: rest, r => by
    show andThen (checkExpr ctx g r) (fun r1 => checkExprs ctx rest r1) =
      runSites ctx (sitesExpr g ++ sitesExprs rest) r
    have h1 := checkExpr_eq_runSites ctx g
    have h2 := checkExprs_eq_runSites ctx rest
    simp only [runSites_append, h1, h2]

theorem checkOrderBy_eq_runSites [GoStrings] (ctx : Context) :
    ∀ (orderBy : List (Option Order)) (r : Record),
      checkOrderBy ctx orderBy r = runSites ctx (sitesOrderBy orderBy) r
  | [], _ => rfl
  | none :: rest, r => checkOrderBy_eq_runSites ctx rest r
  | some (.mk e _) :: rest, r => by
    show andThen (checkExpr ctx e r) (fun r1 => checkOrderBy ctx rest r1) =
      runSites ctx (sitesExpr e ++ sitesOrderBy rest) r
    have h1 := checkExpr_eq_runSites ctx e
    have h2 := checkOrderBy_eq_runSites ctx rest
    simp only [runSites_append, h1, h2]

theorem checkWhens_eq_runSites [GoStrings] (ctx : Context) :
    ∀ (whens : List (Option When)) (r : Record),
      checkWhens ctx whens r = runSites ctx (sitesWhens whens) r
  | [], _ => rfl
  | none :: rest, r => checkWhens_eq_runSites ctx rest r
  | some (.mk cond val) :: rest, r => by
    show andThen (checkExpr ctx cond r) (fun r1 =>
        andThen (checkExpr ctx val r1) (fun r2 => checkWhens ctx rest r2)) =
      runSites ctx (sitesExpr cond ++ (sitesExpr val ++ sitesWhens rest)) r
    have h1 := checkExpr_eq_runSites ctx cond
    have h2 := checkExpr_eq_runSites ctx val
    have h3 := checkWhens_eq_runSites ctx rest
    simp only [runSites_append, h1, h2, h3]

theorem checkTableExpr_eq_runSites [GoStrings] (ctx : Context) :
    ∀ (expr : TableExpr) (r : Record),
      checkTableExpr ctx expr r = runSites ctx (sitesTableExpr expr) r
  | .nil, _ => rfl
  | .AliasedTableExpr e _, r => checkSimpleTableExpr_eq_runSites ctx e r
  | .ParenTableExpr exprs, r => by
    show andThen (checkTableExprs ctx exprs r) (fun r1 => (true, r1)) =
      runSites ctx (sitesTableExprs exprs) r
    rw [andThen_ret]
    exact checkTableExprs_eq_runSites ctx exprs r
  | .JoinTableExpr leftExpr _ rightExpr on_, r => by
    show andThen (checkTableExpr ctx leftExpr r) (fun r1 =>
        andThen (checkTableExpr ctx rightExpr r1) (fun r2 =>
        andThen (checkExpr ctx on_ r2) (fun r3 => (true, r3)))) =
      runSites ctx (sitesTableExpr leftExpr ++ (sitesTableExpr rightExpr ++ sitesExpr on_)) r
    have h1 := checkTableExpr_eq_runSites ctx leftExpr
    have h2 := checkTableExpr_eq_runSites ctx rightExpr
    have h3 := checkExpr_eq_runSites ctx on_
    simp only [runSites_append, h1, h2, h3, andThen_ret]
  | .other, _ => rfl

theorem checkExpr_eq_runSites [GoStrings] (ctx : Context) :
    ∀ (expr : Expr) (r : Record), checkExpr ctx expr r = runSites ctx (sitesExpr expr) r
  | .nil, _ => rfl
  | .other, _ => rfl
  | .SQLVal _ _, _ => rfl
  | .NullVal, _ => rfl
  | .BoolVal _, _ => rfl
  | .ColName _, _ => rfl
  | .ListArg _, _ => rfl
  | .ValuesFuncExpr _, _ => rfl
  | .AndExpr left right, r => by
    have h1 := checkExpr_eq_runSites ctx left
    have h2 := checkExpr_eq_runSites ctx right
    simp only [checkExpr_AndExpr, sitesExpr, runSites_append, runSites_cons, runSites_nil,
      Site.run, andThen_ret, h1, h2]
  | .OrExpr left right, r => by
    have h1 := checkExpr_eq_runSites ctx left
    have h2 := checkExpr_eq_runSites ctx right
    simp only [checkExpr_OrExpr, sitesExpr, runSites_append, runSites_cons, runSites_nil,
      Site.run, andThen_ret, h1, h2]
  | .NotExpr e, r => by
    have h1 := checkExpr_eq_runSites ctx e
    simp only [checkExpr_NotExpr, sitesExpr, runSites_append, runSites_cons, runSites_nil,
      Site.run, andThen_ret, h1]
  | .ParenExpr e, r => by
    have h1 := checkExpr_eq_runSites ctx e
    simp only [checkExpr_ParenExpr, sitesExpr, runSites_append, runSites_cons, runSites_nil,
      Site.run, andThen_ret, h1]
  | .ComparisonExpr _ left right escape, r => by
    have h1 := checkExpr_eq_runSites ctx left
    have h2 := checkExpr_eq_runSites ctx right
    have h3 := checkExpr_eq_runSites ctx escape
    simp only [checkExpr_ComparisonExpr, sitesExpr, runSites_append, runSites_cons, runSites_nil,
      Site.run, andThen_ret, h1, h2, h3]
  | .RangeCond _ left from_ to_, r => by
    have h1 := checkExpr_eq_runSites ctx left
    have h2 := checkExpr_eq_runSites ctx from_
    have h3 := checkExpr_eq_runSites ctx to_
    simp only [checkExpr_RangeCond, sitesExpr, runSites_append, runSites_cons, runSites_nil,
      Site.run, andThen_ret, h1, h2, h3]
  | .IsExpr _ e, r => by
    have h1 := checkExpr_eq_runSites ctx e
    simp only [checkExpr_IsExpr, sitesExpr, runSites_append, runSites_cons, runSites_nil,
      Site.run, andThen_ret, h1]
  | .ExistsExpr (.mk select), r => by
    have h1 := checkStmt_eq_runSites ctx select
    simp only [checkExpr_ExistsExpr, sitesExpr, runSites_append, runSites_cons, runSites_nil,
      Site.run, andThen_ret, h1]
  | .ValTuple exprs, r => by
    have h1 := checkExprs_eq_runSites ctx exprs
    simp only [checkExpr_ValTuple, sitesExpr, runSites_append, runSites_cons, runSites_nil,
      Site.run, andThen_ret, h1]
  | .Subquery (.mk select), r => by
    have h1 := checkStmt_eq_runSites ctx select
    simp only [checkExpr_Subquery, sitesExpr, runSites_append, runSites_cons, runSites_nil,
      Site.run, andThen_ret, h1]
  | .BinaryExpr _ left right, r => by
    have h1 := checkExpr_eq_runSites ctx left
    have h2 := checkExpr_eq_runSites ctx right
    simp only [checkExpr_BinaryExpr, sitesExpr, runSites_append, runSites_cons, runSites_nil,
      Site.run, andThen_ret, h1, h2]
  | .UnaryExpr _ e, r => by
    have h1 := checkExpr_eq_runSites ctx e
    simp only [checkExpr_UnaryExpr, sitesExpr, runSites_append, runSites_cons, runSites_nil,
      Site.run, andThen_ret, h1]
  | .IntervalExpr e _, r => by
    have h1 := checkExpr_eq_runSites ctx e
    simp only [checkExpr_IntervalExpr, sitesExpr, runSites_append, runSites_cons, runSites_nil,
      Site.run, andThen_ret, h1]
  | .CollateExpr e _, r => by
    have h1 := checkExpr_eq_runSites ctx e
    simp only [checkExpr_CollateExpr, sitesExpr, runSites_append, runSites_cons, runSites_nil,
      Site.run, andThen_ret, h1]
  | .FuncExpr _ _ _ exprs, r => by
    have h1 := checkSelectExprs_eq_runSites ctx exprs
    simp only [checkExpr_FuncExpr, sitesExpr, runSites_append, runSites_cons, runSites_nil,
      Site.run, andThen_ret, h1]
  | .CaseExpr e whens else_, r => by
    have h1 := checkExpr_eq_runSites ctx e
    have h2 := checkExpr_eq_runSites ctx else_
    have h3 := checkWhens_eq_runSites ctx whens
    simp only [checkExpr_CaseExpr, sitesExpr, runSites_append, runSites_cons, runSites_nil,
      Site.run, andThen_ret, h1, h2, h3]
  | .ConvertExpr e _, r => by
    have h1 := checkExpr_eq_runSites ctx e
    simp only [checkExpr_ConvertExpr, sitesExpr, runSites_append, runSites_cons, runSites_nil,
      Site.run, andThen_ret, h1]
  | .SubstrExpr _ from_ to_, r => by
    have h1 := checkExpr_eq_runSites ctx from_
    have h2 := checkExpr_eq_runSites ctx to_
    simp only [checkExpr_SubstrExpr, sitesExpr, runSites_append, runSites_cons, runSites_nil,
      Site.run, andThen_ret, h1, h2]
  | .ConvertUsingExpr e _, r => by
    have h1 := checkExpr_eq_runSites ctx e
    simp only [checkExpr_ConvertUsingExpr, sitesExpr, runSites_append, runSites_cons, runSites_nil,
      Site.run, andThen_ret, h1]
  | .MatchExpr columns e _, r => by
    have h1 := checkExpr_eq_runSites ctx e
    have h2 := checkSelectExprs_eq_runSites ctx columns
    simp only [checkExpr_MatchExpr, sitesExpr, runSites_append, runSites_cons, runSites_nil,
      Site.run, andThen_ret, h1, h2]
  | .GroupConcatExpr _ exprs orderBy _, r => by
    have h1 := checkSelectExprs_eq_runSites ctx exprs
    have h2 := checkOrderBy_eq_runSites ctx orderBy
    simp only [checkExpr_GroupConcatExpr, sitesExpr, runSites_append, runSites_cons, runSites_nil,
      Site.run, andThen_ret, h1, h2]
  | .Default _, r => by
    simp only [checkExpr_Default, sitesExpr, runSites_append, runSites_cons, runSites_nil,
      Site.run, andThen_ret]

theorem checkSimpleTableExpr_eq_runSites [GoStrings] (ctx : Context) :
    ∀ (expr : SimpleTableExpr) (r : Record),
      checkSimpleTableExpr ctx expr r = runSites ctx (sitesSimpleTableExpr expr) r
  | .nil, _ => rfl
  | .TableName tableName, r => (runSites_singleton ctx (Site.tableSource tableName) r).symm
  | .Subquery (.mk select), r => checkStmt_eq_runSites ctx select r
  | .other, _ => rfl

theorem checkSelectExpr_eq_runSites [GoStrings] (ctx : Context) :
    ∀ (expr : SelectExpr) (r : Record),
      checkSelectExpr ctx expr r = runSites ctx (sitesSelectExpr expr) r
  | .nil, _ => rfl
  | .StarExpr tableName, r => (runSites_singleton ctx (Site.star tableName) r).symm
  | .AliasedExpr e _, r => checkExpr_eq_runSites ctx e r
  | .Nextval e, r => checkExpr_eq_runSites ctx e r
  | .other, _ => rfl
end

/-! ## The checks at a site -/

theorem checkTableName_true_or_false (ctx : Context) (tableName : TableName) (r : Record) :
    checkTableName ctx tableName r = (true, r) ∨ (checkTableName ctx tableName r).1 = false := by
  simp only [checkTableName]
  repeat' split
  all_goals simp

theorem checkColNameString_true_or_false (ctx : Context) (colname : String) (r : Record) :
    checkColNameString ctx colname r = (true, r) ∨
      (checkColNameString ctx colname r).1 = false := by
  simp only [checkColNameString]
  repeat' split
  all_goals simp

theorem checkColName_true_or_false (ctx : Context) (colname : ColName) (r : Record) :
    checkColName ctx colname r = (true, r) ∨ (checkColName ctx colname r).1 = false := by
  have h : checkColName ctx colname r =
      andThen (checkTableName ctx colname.Qualifier r)
        (fun r1 => checkColNameString ctx colname.Name.Str r1) := rfl
  rw [h]
  rcases checkTableName_true_or_false ctx colname.Qualifier r with h1 | h1
  · rw [h1]
    exact checkColNameString_true_or_false ctx colname.Name.Str r
  · right
    rw [andThen_of_false _ h1]
    exact h1

theorem checkFuncName_true_or_false [GoStrings] (ctx : Context) (ident funcName : String) (r : Record) :
    checkFuncName ctx ident funcName r = (true, r) ∨
      (checkFuncName ctx ident funcName r).1 = false := by
  simp only [checkFuncName]
  repeat' split
  all_goals simp

theorem Site.run_true_or_false [GoStrings] (ctx : Context) (s : Site) (r : Record) :
    s.run ctx r = (true, r) ∨ (s.run ctx r).1 = false := by
  cases s with
  | tableSource t => exact checkTableName_true_or_false ctx t r
  | star t => exact checkTableName_true_or_false ctx t r
  | funcCall q n => exact checkFuncName_true_or_false ctx q.Str n.Str r
  | substrColumn c => exact checkColName_true_or_false ctx c r
  | defaultColumn c => exact checkColNameString_true_or_false ctx c r
  | valuesFunc _ => exact Or.inr rfl
  | otherExpr => exact Or.inr rfl
  | otherStmt => exact Or.inr rfl
  | otherTableExpr => exact Or.inr rfl
  | otherSimpleTableExpr => exact Or.inr rfl
  | otherSelectExpr => exact Or.inr rfl

theorem runSites_fst_eq_true_iff [GoStrings] (ctx : Context) (sites : List Site) (r : Record) :
    (runSites ctx sites r).1 = true ↔ ∀ s ∈ sites, (s.run ctx r).1 = true := by
  induction sites with
  | nil => simp [runSites_nil]
  | cons s rest ih =>
    rw [runSites_cons]
    show (andThen (s.run ctx r) (runSites ctx rest)).1 = true ↔ _
    rw [andThen_fst_eq_true_iff]
    rcases Site.run_true_or_false ctx s r with h | h
    · rw [h]
      simp only [List.mem_cons, forall_eq_or_imp, h, true_and]
      exact ih
    · simp [h]

theorem runSites_fst_eq_false_of_mem [GoStrings] (ctx : Context) (sites : List Site) (r : Record)
    (s : Site) (hs : s ∈ sites) (hf : (s.run ctx r).1 = false) :
    (runSites ctx sites r).1 = false := by
  cases h : (runSites ctx sites r).1 with
  | false => rfl
  | true =>
    have h1 := (runSites_fst_eq_true_iff ctx sites r).mp h s hs
    rw [hf] at h1
    cases h1

/-! ## The identifier rules -/

theorem checkTableName_fst_eq_true_iff (ctx : Context) (tableName : TableName) (r : Record) :
    (checkTableName ctx tableName r).1 = true ↔
      tableName.Name.v = "" ∨
      ((ctx.allowTableName = none ∨ ∃ l, ctx.allowTableName = some l ∧ tableName.Name.v ∈ l) ∧
       (tableName.Qualifier.v = "" ∨
         ∃ l, ctx.allowDBName = some l ∧ tableName.Qualifier.v ∈ l)) := by
  rcases ctx with ⟨tn, db, cn, fi, fn⟩
  rcases tableName with ⟨⟨n⟩, ⟨q⟩⟩
  by_cases hn : n = ""
  · simp [checkTableName, TableName.IsEmpty, TableIdent.IsEmpty, hn]
  · by_cases hq : q = ""
    · cases tn <;> cases db <;>
        simp [checkTableName, TableName.IsEmpty, TableIdent.IsEmpty, TableIdent.Str, hn, hq,
          InList_eq_true_iff, InList_eq_false_iff]
      all_goals (split_ifs <;> simp_all)
    · cases tn <;> cases db <;>
        simp [checkTableName, TableName.IsEmpty, TableIdent.IsEmpty, TableIdent.Str, hn, hq,
          InList_eq_true_iff, InList_eq_false_iff]
      all_goals (split_ifs <;> simp_all)

theorem checkTableName_name_message (ctx : Context) (tableName : TableName) (r : Record)
    (hq : tableName.Qualifier.v = "") (hf : (checkTableName ctx tableName r).1 = false) :
    (checkTableName ctx tableName r).2.Msg = "bad table name for " ++ tableName.Name.v := by
  rcases ctx with ⟨tn, db, cn, fi, fn⟩
  rcases tableName with ⟨⟨n⟩, ⟨q⟩⟩
  simp only at hq
  subst hq
  revert hf
  by_cases hn : n = ""
  · simp [checkTableName, TableName.IsEmpty, TableIdent.IsEmpty, hn]
  · cases tn <;> cases db <;>
      simp [checkTableName, TableName.IsEmpty, TableIdent.IsEmpty, TableIdent.Str, hn,
        InList_eq_true_iff, InList_eq_false_iff]
    all_goals (split_ifs <;> simp_all)

theorem checkColNameString_fst_eq_true_iff (ctx : Context) (colname : String) (r : Record) :
    (checkColNameString ctx colname r).1 = true ↔
      colname = "" ∨ ctx.allowColName = none ∨
      ∃ l, ctx.allowColName = some l ∧ (colname ∈ l ∨ ("`" ++ colname ++ "`") ∈ l) := by
  rcases ctx with ⟨tn, db, cn, fi, fn⟩
  by_cases hn : colname = ""
  · simp [checkColNameString, hn]
  · have hlen : ¬ colname.length = 0 := fun h => hn ((length_eq_zero_iff colname).mp h)
    cases cn <;>
      simp [checkColNameString, hn, hlen, InList_eq_true_iff, InList_eq_false_iff]
    all_goals (split_ifs <;> simp_all)
    all_goals tauto

theorem checkFuncName_fst_eq_true_iff [GoStrings] (ctx : Context) (ident funcName : String) (r : Record) :
    (checkFuncName ctx ident funcName r).1 = true ↔
      ¬ (funcName = "" ∧ ident = "") ∧
      (ident = "" ∨ ctx.allowFuncIdent = none ∨
        ∃ l, ctx.allowFuncIdent = some l ∧ ident ∈ l) ∧
      ∃ l, ctx.allowFuncName = some l ∧ ToUpper funcName ∈ l := by
  rcases ctx with ⟨tn, db, cn, fi, fn⟩
  have hi := length_eq_zero_iff ident
  have hf := length_eq_zero_iff funcName
  by_cases h1 : ident = "" <;> by_cases h2 : funcName = "" <;> cases fi <;> cases fn <;>
    simp [checkFuncName, h1, h2, hi, hf, InList_eq_true_iff, InList_eq_false_iff]
  all_goals (split_ifs <;> simp_all)
/-! ## Claims -/

/-- C1 (as amended): for every statement that is not nil and whose top-level
kind is not SELECT, for every configuration and every initial record,
`checkStmt` returns false and leaves the message "bad stmt operation"; so
`CheckSQL`, which starts from a fresh record, returns
`(false, "bad stmt operation", nil)`.  The result does not depend on what the
statement contains. -/
theorem checkStmt_non_select [GoStrings] (ctx : Context) (stmt : Statement) (r : Record)
    (hnil : stmt ≠ Statement.nil) (hsel : ∀ s, stmt ≠ Statement.Select s) :
    checkStmt ctx stmt r = (false, Record.mk "bad stmt operation") ∧
    ∀ (parse : String → Except String Statement) (q : String), parse q = .ok stmt →
      CheckSQL parse ctx q = (false, "bad stmt operation", none) := by
  have h : ∀ r0, checkStmt ctx stmt r0 = (false, Record.mk "bad stmt operation") := by
    intro r0
    cases stmt with
    | nil => exact absurd rfl hnil
    | Select s => exact absurd rfl (hsel s)
    | Union _ _ _ _ _ => rfl
    | ParenSelect _ => rfl
    | Other _ => rfl
  refine ⟨h r, ?_⟩
  intro parse q hq
  simp [CheckSQL, hq, h]

/-- The amended C1 at an INSERT statement, every allowlist absent. -/
theorem checkStmt_non_select_witness :
    @checkStmt asciiStrings noLists (Statement.Other StmtKind.Insert) (Record.mk "") =
      (false, Record.mk "bad stmt operation") :=
  (@checkStmt_non_select asciiStrings noLists (Statement.Other StmtKind.Insert) (Record.mk "")
    (fun h => Statement.noConfusion h) (fun _ h => Statement.noConfusion h)).1

/-- C1, as stated, fails: an INSERT statement is rejected with the message
"bad stmt operation", which is not "unsupported statement". -/
theorem checkStmt_non_select_message_counterexample :
    @checkStmt asciiStrings noLists (Statement.Other StmtKind.Insert) (Record.mk "") ≠
      (false, Record.mk "unsupported statement") := by
  decide

/-- C2 (the code at the failing input): with the column allowlist `["a"]`, the
column-name rule rejects the column `b` (`checkColName` fails with
"bad table col for b"), yet `checkExpr` on the column reference `b` returns
true without touching the record, and `SELECT b FROM t` passes. -/
theorem checkExpr_ColName_unchecked :
    (checkColName (Context.mk none none (some ["a"]) none none)
        (ColName.mk (ColIdent.mk "b") (TableName.mk (TableIdent.mk "") (TableIdent.mk "")))
        (Record.mk "")
      = (false, Record.mk "bad table col for b")) ∧
    (@checkExpr asciiStrings (Context.mk none none (some ["a"]) none none) (col "b") (Record.mk "")
      = (true, Record.mk "")) ∧
    (@checkStmt asciiStrings (Context.mk none none (some ["a"]) none none)
        (selectFrom [colItem "b"] [table "" "t"]) (Record.mk "")
      = (true, Record.mk "")) := by
  decide

/-- C3: when the function-name allowlist is absent, `checkExpr` fails on every
function call, whatever its name, ident and arguments and whatever the other
four allowlists; hence `SELECT COUNT(*) FROM t` fails. -/
theorem checkExpr_FuncExpr_default_deny [GoStrings] (ctx : Context) (h : ctx.allowFuncName = none)
    (qualifier : TableIdent) (name : ColIdent) (distinct : Bool)
    (exprs : List SelectExpr) (r : Record) :
    (checkExpr ctx (Expr.FuncExpr qualifier name distinct exprs) r).1 = false ∧
    (checkStmt ctx selectCountStar r).1 = false := by
  have hf : ∀ ident funcName r0, (checkFuncName ctx ident funcName r0).1 = false := by
    intro ident funcName r0
    cases hc : (checkFuncName ctx ident funcName r0).1 with
    | false => rfl
    | true =>
      obtain ⟨_, _, l, hl, _⟩ := (checkFuncName_fst_eq_true_iff ctx ident funcName r0).mp hc
      rw [h] at hl
      cases hl
  have hE : ∀ q n d es r0, (checkExpr ctx (Expr.FuncExpr q n d es) r0).1 = false := by
    intro q n d es r0
    rw [checkExpr_FuncExpr, andThen_of_false _ (hf _ _ _)]
    exact hf _ _ _
  refine ⟨hE _ _ _ _ _, ?_⟩
  have hs : sitesStmt selectCountStar =
      [Site.funcCall (TableIdent.mk "") (ColIdent.mk "COUNT"),
       Site.star (TableName.mk (TableIdent.mk "") (TableIdent.mk "")),
       Site.tableSource (TableName.mk (TableIdent.mk "t") (TableIdent.mk ""))] := rfl
  rw [checkStmt_eq_runSites]
  exact runSites_fst_eq_false_of_mem ctx _ r
    (Site.funcCall (TableIdent.mk "") (ColIdent.mk "COUNT")) (by rw [hs]; simp) (hf _ _ _)

/-- C3 at `COUNT()` with every allowlist absent. -/
theorem checkExpr_FuncExpr_default_deny_witness :
    (@checkExpr asciiStrings noLists (Expr.FuncExpr (TableIdent.mk "") (ColIdent.mk "COUNT") false []) (Record.mk "")).1 = false ∧
    (@checkStmt asciiStrings noLists selectCountStar (Record.mk "")).1 = false :=
  @checkExpr_FuncExpr_default_deny asciiStrings noLists rfl (TableIdent.mk "") (ColIdent.mk "COUNT") false []
    (Record.mk "")

/-- C4: when the table-name allowlist is present and `checkStmt` passes, every
table name that is the source of an aliased table expression anywhere in the
statement (in a FROM list, a join, a parenthesized list, a FROM-subquery, an
expression subquery, an EXISTS subquery, at any depth) and every table of a
star select-item is, when it is not empty, an entry of the allowlist. -/
theorem checkStmt_tables_sound [GoStrings] (ctx : Context) (l : List String)
    (hl : ctx.allowTableName = some l) (stmt : Statement) (r : Record)
    (hpass : (checkStmt ctx stmt r).1 = true) (tableName : TableName)
    (hocc : Site.tableSource tableName ∈ sitesStmt stmt ∨
      Site.star tableName ∈ sitesStmt stmt)
    (hne : tableName.Name.v ≠ "") :
    tableName.Name.v ∈ l := by
  rw [checkStmt_eq_runSites] at hpass
  have hall := (runSites_fst_eq_true_iff ctx (sitesStmt stmt) r).mp hpass
  have ht : (checkTableName ctx tableName r).1 = true := by
    rcases hocc with h | h
    · exact hall _ h
    · exact hall _ h
  rcases (checkTableName_fst_eq_true_iff ctx tableName r).mp ht with h | ⟨h, _⟩
  · exact absurd h hne
  · rcases h with h | ⟨l2, h2, hmem⟩
    · rw [hl] at h
      cases h
    · rw [hl] at h2
      cases h2
      exact hmem

/-- C4 at a join with a FROM-subquery and an EXISTS subquery: the statement
passes and the table `b` of the FROM-subquery is on the allowlist. -/
theorem checkStmt_tables_sound_witness :
    (@checkStmt asciiStrings (Context.mk (some ["t", "a", "b", "c"]) none none none none) selectJoined
        (Record.mk "")).1 = true ∧
    Site.tableSource (TableName.mk (TableIdent.mk "b") (TableIdent.mk "")) ∈
      sitesStmt selectJoined ∧
    "b" ∈ ["t", "a", "b", "c"] :=
  ⟨by decide, by decide,
    @checkStmt_tables_sound asciiStrings (Context.mk (some ["t", "a", "b", "c"]) none none none none)
      ["t", "a", "b", "c"] rfl selectJoined (Record.mk "") (by decide)
      (TableName.mk (TableIdent.mk "b") (TableIdent.mk "")) (Or.inl (by decide))
      (by decide)⟩

/-- C5: for a table reference as the parser builds it, where an empty name
comes with an empty qualifier, the qualifier rule runs beside the table-name
rule: `checkTableName` passes exactly when both pass, the qualifier rule being
that the qualifier is empty, or the database allowlist is present and has the
qualifier as an entry.  So a non-empty qualifier fails when that allowlist is
absent and, when it is present, fails unless it is an entry, and an empty
qualifier leaves the verdict to the table-name rule.  With the database
allowlist absent `SELECT a FROM db.t` fails, and `SELECT a FROM t` passes
whenever `t` passes the table-name rule and `a` the column rule, as when the
table and column allowlists are absent too. -/
theorem checkTableName_qualifier_rule [GoStrings] (ctx : Context) (tableName : TableName)
    (r : Record) (hinv : tableName.Name.v = "" → tableName.Qualifier.v = "") :
    ((checkTableName ctx tableName r).1 = true ↔
      (tableName.Name.v = "" ∨ ctx.allowTableName = none ∨
        ∃ l, ctx.allowTableName = some l ∧ tableName.Name.v ∈ l) ∧
      (tableName.Qualifier.v = "" ∨
        ∃ l, ctx.allowDBName = some l ∧ tableName.Qualifier.v ∈ l)) ∧
    (tableName.Qualifier.v ≠ "" → ctx.allowDBName = none →
      (checkTableName ctx tableName r).1 = false) ∧
    (tableName.Qualifier.v ≠ "" → ∀ l, ctx.allowDBName = some l →
      tableName.Qualifier.v ∉ l → (checkTableName ctx tableName r).1 = false) ∧
    (tableName.Qualifier.v = "" →
      ((checkTableName ctx tableName r).1 = true ↔
        (tableName.Name.v = "" ∨ ctx.allowTableName = none ∨
          ∃ l, ctx.allowTableName = some l ∧ tableName.Name.v ∈ l))) ∧
    (ctx.allowDBName = none →
      (checkStmt ctx (selectFrom [colItem "a"] [table "db" "t"]) r).1 = false) ∧
    (ctx.allowDBName = none →
      (ctx.allowTableName = none ∨ ∃ l, ctx.allowTableName = some l ∧ "t" ∈ l) →
      (checkColNameString ctx "a" r).1 = true →
      checkStmt ctx (selectFrom [colItem "a"] [table "" "t"]) r = (true, r)) ∧
    (∀ fi fn : Option (List String),
      checkStmt (Context.mk none none none fi fn) (selectFrom [colItem "a"] [table "" "t"]) r =
        (true, r)) := by
  have key : (checkTableName ctx tableName r).1 = true ↔
      (tableName.Name.v = "" ∨ ctx.allowTableName = none ∨
        ∃ l, ctx.allowTableName = some l ∧ tableName.Name.v ∈ l) ∧
      (tableName.Qualifier.v = "" ∨
        ∃ l, ctx.allowDBName = some l ∧ tableName.Qualifier.v ∈ l) := by
    rw [checkTableName_fst_eq_true_iff]
    constructor
    · rintro (h | ⟨h1, h2⟩)
      · exact ⟨Or.inl h, Or.inl (hinv h)⟩
      · exact ⟨Or.inr h1, h2⟩
    · rintro ⟨h1 | h1, h2⟩
      · exact Or.inl h1
      · exact Or.inr ⟨h1, h2⟩
  have hfalse : ∀ b : Bool, ¬ b = true → b = false := by
    intro b hb
    cases b
    · rfl
    · exact absurd rfl hb
  refine ⟨key, ?_, ?_, ?_, ?_, ?_, ?_⟩
  · intro hq hdb
    apply hfalse
    intro hc
    rcases (key.mp hc).2 with h | ⟨l, h, _⟩
    · exact hq h
    · rw [hdb] at h
      cases h
  · intro hq l hdb hnot
    apply hfalse
    intro hc
    rcases (key.mp hc).2 with h | ⟨l2, h, hmem⟩
    · exact hq h
    · rw [hdb] at h
      cases h
      exact hnot hmem
  · intro hq
    rw [key]
    constructor
    · intro h
      exact h.1
    · intro h
      exact ⟨h, Or.inl hq⟩
  · intro hdb
    rw [checkStmt_eq_runSites]
    apply runSites_fst_eq_false_of_mem ctx _ r
      (Site.tableSource (TableName.mk (TableIdent.mk "t") (TableIdent.mk "db"))) (by decide)
    show (checkTableName ctx (TableName.mk (TableIdent.mk "t") (TableIdent.mk "db")) r).1 = false
    apply hfalse
    intro hc
    rcases (checkTableName_fst_eq_true_iff ctx _ r).mp hc with h | ⟨_, h | ⟨l, h, _⟩⟩
    · exact absurd h (by decide)
    · exact absurd h (by decide)
    · rw [hdb] at h
      cases h
  · intro hdb htab _
    rw [checkStmt_eq_runSites]
    show runSites ctx [Site.tableSource (TableName.mk (TableIdent.mk "t") (TableIdent.mk ""))] r =
      (true, r)
    rw [runSites_singleton]
    show checkTableName ctx (TableName.mk (TableIdent.mk "t") (TableIdent.mk "")) r = (true, r)
    rcases checkTableName_true_or_false ctx
      (TableName.mk (TableIdent.mk "t") (TableIdent.mk "")) r with h | h
    · exact h
    · have h2 := (checkTableName_fst_eq_true_iff ctx
        (TableName.mk (TableIdent.mk "t") (TableIdent.mk "")) r).mpr
        (Or.inr ⟨htab, Or.inl rfl⟩)
      rw [h] at h2
      cases h2
  · intro fi fn
    rfl

/-- C5 at the reference `db.t`, every allowlist absent. -/
theorem checkTableName_qualifier_rule_witness :
    (checkTableName noLists (TableName.mk (TableIdent.mk "t") (TableIdent.mk "db"))
        (Record.mk "")).1 = false :=
  (@checkTableName_qualifier_rule asciiStrings noLists
    (TableName.mk (TableIdent.mk "t") (TableIdent.mk "db")) (Record.mk "")
    (by decide)).2.1 (by decide) rfl

/-- C6: for a table reference with an empty qualifier, `checkTableName` passes
exactly when the name is empty, or the table-name allowlist is absent, or the
name is an entry of it (compared as it is); when it fails the message is
"bad table name for " followed by the name.  So an absent allowlist accepts
every name and a present, empty allowlist rejects every non-empty name. -/
theorem checkTableName_name_rule (ctx : Context) (tableName : TableName) (r : Record)
    (hq : tableName.Qualifier.v = "") :
    ((checkTableName ctx tableName r).1 = true ↔
      tableName.Name.v = "" ∨ ctx.allowTableName = none ∨
      ∃ l, ctx.allowTableName = some l ∧ tableName.Name.v ∈ l) ∧
    ((checkTableName ctx tableName r).1 = false →
      (checkTableName ctx tableName r).2.Msg = "bad table name for " ++ tableName.Name.v) ∧
    (ctx.allowTableName = none → checkTableName ctx tableName r = (true, r)) ∧
    (ctx.allowTableName = some [] → tableName.Name.v ≠ "" →
      checkTableName ctx tableName r =
        (false, Record.mk ("bad table name for " ++ tableName.Name.v))) := by
  have key : (checkTableName ctx tableName r).1 = true ↔
      tableName.Name.v = "" ∨ ctx.allowTableName = none ∨
      ∃ l, ctx.allowTableName = some l ∧ tableName.Name.v ∈ l := by
    rw [checkTableName_fst_eq_true_iff]
    constructor
    · rintro (h | ⟨h, _⟩)
      · exact Or.inl h
      · exact Or.inr h
    · rintro (h | h)
      · exact Or.inl h
      · exact Or.inr ⟨h, Or.inl hq⟩
  have hmsg := checkTableName_name_message ctx tableName r hq
  refine ⟨key, hmsg, ?_, ?_⟩
  · intro hnone
    rcases checkTableName_true_or_false ctx tableName r with h | h
    · exact h
    · have h2 := key.mpr (Or.inr (Or.inl hnone))
      rw [h] at h2
      cases h2
  · intro hempty hne
    have hf : (checkTableName ctx tableName r).1 = false := by
      cases hc : (checkTableName ctx tableName r).1 with
      | false => rfl
      | true =>
        rcases key.mp hc with h | h | ⟨l, h, hmem⟩
        · exact absurd h hne
        · rw [hempty] at h
          cases h
        · rw [hempty] at h
          cases h
          cases hmem
    have h2 := hmsg hf
    rcases hres : checkTableName ctx tableName r with ⟨b, ⟨m⟩⟩
    rw [hres] at hf h2
    simp only at hf h2
    rw [hf, h2]

/-- C6 at the reference `orders` with a present, empty table allowlist. -/
theorem checkTableName_name_rule_witness :
    checkTableName (Context.mk (some []) none none none none)
        (TableName.mk (TableIdent.mk "orders") (TableIdent.mk "")) (Record.mk "") =
      (false, Record.mk "bad table name for orders") :=
  (checkTableName_name_rule (Context.mk (some []) none none none none)
    (TableName.mk (TableIdent.mk "orders") (TableIdent.mk "")) (Record.mk "") rfl).2.2.2
    rfl (by decide)

/-- C7: `checkColNameString` passes on a column name exactly when the name is
empty, or the column allowlist is absent, or the allowlist has the name itself
or the name wrapped in backticks as an entry.  With the one entry `col` in
backticks the allowlist accepts the column name `col`, through
`checkColNameString` and through `checkColName` on the unqualified column. -/
theorem checkColNameString_rule (ctx : Context) (n : String) (r : Record) :
    ((checkColNameString ctx n r).1 = true ↔
      n = "" ∨ ctx.allowColName = none ∨
      ∃ l, ctx.allowColName = some l ∧ (n ∈ l ∨ ("`" ++ n ++ "`") ∈ l)) ∧
    (∀ tn db fi fn : Option (List String),
      checkColNameString (Context.mk tn db (some ["`col`"]) fi fn) "col" r = (true, r) ∧
      checkColName (Context.mk tn db (some ["`col`"]) fi fn)
        (ColName.mk (ColIdent.mk "col") (TableName.mk (TableIdent.mk "") (TableIdent.mk "")))
        r = (true, r)) := by
  refine ⟨checkColNameString_fst_eq_true_iff ctx n r, ?_⟩
  intro tn db fi fn
  exact ⟨rfl, rfl⟩

/-- C9: for a call whose name passes the function-name rule (the allowlist is
present and has the upper-cased name as an entry) and whose name and ident
are not both empty, as in every call the parser builds, which has a name:
`checkFuncName` passes when the ident is empty or the ident allowlist is
absent; when the ident is not empty and the ident allowlist is present it
passes exactly when the ident is an entry, and otherwise fails with the
message "bad func ident for " followed by the ident. -/
theorem checkFuncName_ident_rule [GoStrings] (ctx : Context) (lf : List String)
    (hlf : ctx.allowFuncName = some lf) (ident name : String)
    (hname : ToUpper name ∈ lf) (hboth : ¬ (name = "" ∧ ident = "")) (r : Record) :
    ((ident = "" ∨ ctx.allowFuncIdent = none) → checkFuncName ctx ident name r = (true, r)) ∧
    (ident ≠ "" → ∀ li, ctx.allowFuncIdent = some li →
      (((checkFuncName ctx ident name r).1 = true ↔ ident ∈ li) ∧
       (ident ∉ li →
         checkFuncName ctx ident name r = (false, Record.mk ("bad func ident for " ++ ident))))) := by
  have key := checkFuncName_fst_eq_true_iff ctx ident name r
  constructor
  · intro h
    have hp : (checkFuncName ctx ident name r).1 = true := by
      rw [key]
      refine ⟨hboth, ?_, lf, hlf, hname⟩
      rcases h with h | h
      · exact Or.inl h
      · exact Or.inr (Or.inl h)
    rcases checkFuncName_true_or_false ctx ident name r with h2 | h2
    · exact h2
    · rw [h2] at hp
      cases hp
  · intro hi li hli
    constructor
    · rw [key]
      constructor
      · rintro ⟨_, h, _⟩
        rcases h with h | h | ⟨l2, h2, hmem⟩
        · exact absurd h hi
        · rw [hli] at h
          cases h
        · rw [hli] at h2
          cases h2
          exact hmem
      · intro hmem
        exact ⟨hboth, Or.inr (Or.inr ⟨li, hli, hmem⟩), lf, hlf, hname⟩
    · intro hnot
      rcases ctx with ⟨tn, db, cn, fi, fn⟩
      simp only at hli
      subst hli
      have hlen : ¬ ident.length = 0 := fun h => hi ((length_eq_zero_iff ident).mp h)
      have hin : InList li ident = false := (InList_eq_false_iff li ident).mpr hnot
      simp [checkFuncName, hlen, hin]

/-- C9 at the call `sys.count` with ident allowlist `["db"]`. -/
theorem checkFuncName_ident_rule_witness :
    @checkFuncName asciiStrings (Context.mk none none none (some ["db"]) (some ["COUNT"])) "sys" "count"
        (Record.mk "") = (false, Record.mk "bad func ident for sys") :=
  ((@checkFuncName_ident_rule asciiStrings (Context.mk none none none (some ["db"]) (some ["COUNT"]))
    ["COUNT"] rfl "sys" "count" (by decide) (by decide) (Record.mk "")).2 (by decide)
    ["db"] rfl).2 (by decide)

/-- C10: `checkExpr` rejects a `ValuesFuncExpr` under every configuration, with
the message "bad values expr", and `checkStmt` fails on every statement in
which a `ValuesFuncExpr` occurs, at any depth; `SELECT VALUES(x) FROM t`
fails under every configuration. -/
theorem checkStmt_values_rejected [GoStrings] (ctx : Context) (stmt : Statement) (r : Record)
    (name : ColName) (hocc : Site.valuesFunc name ∈ sitesStmt stmt) :
    (checkStmt ctx stmt r).1 = false ∧
    checkExpr ctx (Expr.ValuesFuncExpr name) r = (false, Record.mk "bad values expr") ∧
    checkStmt ctx selectValues r = (false, Record.mk "bad values expr") := by
  refine ⟨?_, rfl, rfl⟩
  rw [checkStmt_eq_runSites]
  exact runSites_fst_eq_false_of_mem ctx _ r _ hocc rfl

/-- C10 at a statement whose `VALUES(x)` sits in a WHERE subquery. -/
theorem checkStmt_values_rejected_witness :
    (@checkStmt asciiStrings noLists selectValuesNested (Record.mk "")).1 = false :=
  (@checkStmt_values_rejected asciiStrings noLists selectValuesNested (Record.mk "")
    (ColName.mk (ColIdent.mk "x") (TableName.mk (TableIdent.mk "") (TableIdent.mk "")))
    (by decide)).1

/-! ## Lists of checks -/

theorem runChecks_nil (r : Record) : runChecks [] r = (true, r) := rfl

theorem runChecks_cons (c : Record → Bool × Record) (rest : List (Record → Bool × Record))
    (r : Record) : runChecks (c :: rest) r = andThen (c r) (runChecks rest) := rfl

theorem runChecks_append (xs ys : List (Record → Bool × Record)) (r : Record) :
    runChecks (xs ++ ys) r = andThen (runChecks xs r) (runChecks ys) := by
  induction xs generalizing r with
  | nil => rfl
  | cons c rest ih =>
    show andThen (c r) (fun r1 => runChecks (rest ++ ys) r1) = _
    rw [runChecks_cons, andThen_assoc]
    congr 1
    funext r1
    exact ih r1

theorem runChecks_append_fun (xs ys : List (Record → Bool × Record)) :
    runChecks (xs ++ ys) = fun r => andThen (runChecks xs r) (runChecks ys) := by
  funext r
  exact runChecks_append xs ys r

theorem runChecks_true_or_false (cs : List (Record → Bool × Record))
    (hc : ∀ c ∈ cs, ∀ r, c r = (true, r) ∨ (c r).1 = false) (r : Record) :
    runChecks cs r = (true, r) ∨ (runChecks cs r).1 = false := by
  induction cs with
  | nil => exact Or.inl rfl
  | cons c rest ih =>
    rw [runChecks_cons]
    rcases hc c (List.mem_cons_self c rest) r with h | h
    · rw [h]
      exact ih (fun c2 h2 => hc c2 (List.mem_cons_of_mem c h2))
    · right
      rw [andThen_of_false _ h]
      exact h

theorem runChecks_fst_eq_true_iff (cs : List (Record → Bool × Record))
    (hc : ∀ c ∈ cs, ∀ r, c r = (true, r) ∨ (c r).1 = false) (r : Record) :
    (runChecks cs r).1 = true ↔ ∀ c ∈ cs, (c r).1 = true := by
  induction cs with
  | nil => simp [runChecks_nil]
  | cons c rest ih =>
    rw [runChecks_cons, andThen_fst_eq_true_iff]
    have ih2 := ih (fun c2 h2 => hc c2 (List.mem_cons_of_mem c h2))
    rcases hc c (List.mem_cons_self c rest) r with h | h
    · rw [h]
      simp only [List.mem_cons, forall_eq_or_imp, h, true_and]
      exact ih2
    · simp [h]

theorem runChecks_first_failure (cs : List (Record → Bool × Record))
    (hc : ∀ c ∈ cs, ∀ r, c r = (true, r) ∨ (c r).1 = false) (r : Record)
    (pre : List (Record → Bool × Record)) (c : Record → Bool × Record)
    (post : List (Record → Bool × Record)) (hsplit : cs = pre ++ c :: post)
    (hpre : ∀ p ∈ pre, (p r).1 = true) (hfail : (c r).1 = false) :
    runChecks cs r = c r := by
  subst hsplit
  rw [runChecks_append]
  have hpre2 : ∀ p ∈ pre, ∀ r0, p r0 = (true, r0) ∨ (p r0).1 = false :=
    fun p hp => hc p (List.mem_append_left _ hp)
  have h1 : runChecks pre r = (true, r) := by
    rcases runChecks_true_or_false pre hpre2 r with h | h
    · exact h
    · have h2 := (runChecks_fst_eq_true_iff pre hpre2 r).mpr hpre
      rw [h] at h2
      cases h2
  rw [h1]
  show runChecks (c :: post) r = c r
  rw [runChecks_cons, andThen_of_false _ hfail]

theorem runChecks_exists_first_failure (cs : List (Record → Bool × Record))
    (hc : ∀ c ∈ cs, ∀ r, c r = (true, r) ∨ (c r).1 = false) (r : Record)
    (hfail : (runChecks cs r).1 = false) :
    ∃ pre c post, cs = pre ++ c :: post ∧ (∀ p ∈ pre, (p r).1 = true) ∧
      (c r).1 = false ∧ runChecks cs r = c r := by
  induction cs with
  | nil => cases hfail
  | cons c rest ih =>
    rcases hc c (List.mem_cons_self c rest) r with h | h
    · have hrest : runChecks (c :: rest) r = runChecks rest r := by
        rw [runChecks_cons, h]
        rfl
      rw [hrest] at hfail
      obtain ⟨pre, c2, post, hs, hp, hf, he⟩ :=
        ih (fun c2 h2 => hc c2 (List.mem_cons_of_mem c h2)) hfail
      refine ⟨c :: pre, c2, post, ?_, ?_, hf, ?_⟩
      · rw [hs]
        rfl
      · intro p hp2
        rcases List.mem_cons.mp hp2 with h3 | h3
        · rw [h3, h]
        · exact hp p h3
      · rw [hrest, he]
    · refine ⟨[], c, rest, rfl, ?_, h, ?_⟩
      · intro p hp
        cases hp
      · rw [runChecks_cons, andThen_of_false _ h]

theorem runSites_eq_runChecks [GoStrings] (ctx : Context) (sites : List Site) (r : Record) :
    runSites ctx sites r = runChecks (sites.map (fun s => s.run ctx)) r := by
  induction sites generalizing r with
  | nil => rfl
  | cons s rest ih =>
    show andThen (s.run ctx r) (fun r1 => runSites ctx rest r1) =
      andThen (s.run ctx r) (fun r1 => runChecks (rest.map (fun s => s.run ctx)) r1)
    congr 1
    funext r1
    exact ih r1

theorem runSites_true_or_false [GoStrings] (ctx : Context) (sites : List Site) (r : Record) :
    runSites ctx sites r = (true, r) ∨ (runSites ctx sites r).1 = false := by
  rw [runSites_eq_runChecks]
  apply runChecks_true_or_false
  intro c hc r0
  obtain ⟨s, _, rfl⟩ := List.mem_map.mp hc
  exact Site.run_true_or_false ctx s r0

theorem runSites_exists_first_failure [GoStrings] (ctx : Context) (sites : List Site) (r : Record)
    (hfail : (runSites ctx sites r).1 = false) :
    ∃ s ∈ sites, (s.run ctx r).1 = false ∧ runSites ctx sites r = s.run ctx r := by
  rw [runSites_eq_runChecks] at hfail ⊢
  have hc : ∀ c ∈ sites.map (fun s => s.run ctx), ∀ r0,
      c r0 = (true, r0) ∨ (c r0).1 = false := by
    intro c hc r0
    obtain ⟨s, _, rfl⟩ := List.mem_map.mp hc
    exact Site.run_true_or_false ctx s r0
  obtain ⟨pre, c, post, hs, _, hf, he⟩ := runChecks_exists_first_failure _ hc r hfail
  have hmem : c ∈ sites.map (fun s => s.run ctx) := by
    rw [hs]
    simp
  obtain ⟨s, hsm, rfl⟩ := List.mem_map.mp hmem
  exact ⟨s, hsm, hf, he⟩

/-! ## A check that passes leaves the record as it was -/

theorem checkStmt_true_or_false [GoStrings] (ctx : Context) (stmt : Statement) (r : Record) :
    checkStmt ctx stmt r = (true, r) ∨ (checkStmt ctx stmt r).1 = false := by
  rw [checkStmt_eq_runSites]
  exact runSites_true_or_false ctx _ r

theorem checkExpr_true_or_false [GoStrings] (ctx : Context) (expr : Expr) (r : Record) :
    checkExpr ctx expr r = (true, r) ∨ (checkExpr ctx expr r).1 = false := by
  rw [checkExpr_eq_runSites]
  exact runSites_true_or_false ctx _ r

theorem checkTableExpr_true_or_false [GoStrings] (ctx : Context) (expr : TableExpr) (r : Record) :
    checkTableExpr ctx expr r = (true, r) ∨ (checkTableExpr ctx expr r).1 = false := by
  rw [checkTableExpr_eq_runSites]
  exact runSites_true_or_false ctx _ r

theorem checkSimpleTableExpr_true_or_false [GoStrings] (ctx : Context) (expr : SimpleTableExpr)
    (r : Record) :
    checkSimpleTableExpr ctx expr r = (true, r) ∨
      (checkSimpleTableExpr ctx expr r).1 = false := by
  rw [checkSimpleTableExpr_eq_runSites]
  exact runSites_true_or_false ctx _ r

theorem checkSelectExpr_true_or_false [GoStrings] (ctx : Context) (expr : SelectExpr) (r : Record) :
    checkSelectExpr ctx expr r = (true, r) ∨ (checkSelectExpr ctx expr r).1 = false := by
  rw [checkSelectExpr_eq_runSites]
  exact runSites_true_or_false ctx _ r

/-! ## The loops are runs of lists of checks -/

theorem checkSelectExprs_eq_runChecks [GoStrings] (ctx : Context) (exprs : List SelectExpr) (r : Record) :
    checkSelectExprs ctx exprs r = runChecks (exprs.map (checkSelectExpr ctx)) r := by
  induction exprs generalizing r with
  | nil => rfl
  | cons i rest ih =>
    rw [checkSelectExprs_cons, List.map_cons, runChecks_cons]
    congr 1
    funext r1
    exact ih r1

theorem checkTableExprs_eq_runChecks [GoStrings] (ctx : Context) (exprs : List TableExpr) (r : Record) :
    checkTableExprs ctx exprs r = runChecks (exprs.map (checkTableExpr ctx)) r := by
  induction exprs generalizing r with
  | nil => rfl
  | cons i rest ih =>
    rw [checkTableExprs_cons, List.map_cons, runChecks_cons]
    congr 1
    funext r1
    exact ih r1

theorem checkExprs_eq_runChecks [GoStrings] (ctx : Context) (exprs : List Expr) (r : Record) :
    checkExprs ctx exprs r = runChecks (exprs.map (checkExpr ctx)) r := by
  induction exprs generalizing r with
  | nil => rfl
  | cons g rest ih =>
    rw [checkExprs_cons, List.map_cons, runChecks_cons]
    congr 1
    funext r1
    exact ih r1

theorem checkOrderBy_eq_runChecks [GoStrings] (ctx : Context) (orderBy : List (Option Order))
    (r : Record) :
    checkOrderBy ctx orderBy r = runChecks (orderByChecks ctx orderBy) r := by
  induction orderBy generalizing r with
  | nil => rfl
  | cons o rest ih =>
    rcases o with _ | ⟨e, d⟩
    · rw [checkOrderBy_none]
      exact ih r
    · rw [checkOrderBy_some]
      show _ = andThen (checkExpr ctx e r) (fun r1 => runChecks (orderByChecks ctx rest) r1)
      congr 1
      funext r1
      exact ih r1

theorem checkWhere_eq_runChecks [GoStrings] (ctx : Context) (w : Option Where) (r : Record) :
    checkWhere ctx w r = runChecks (whereChecks ctx w) r := by
  rcases w with _ | ⟨t, e⟩
  · rfl
  · show checkExpr ctx e r = andThen (checkExpr ctx e r) (fun r1 => (true, r1))
    rw [andThen_ret]

theorem checkLimit_eq_runChecks [GoStrings] (ctx : Context) (l : Option Limit) (r : Record) :
    checkLimit ctx l r = runChecks (limitChecks ctx l) r := by
  rcases l with _ | ⟨o, c⟩
  · rfl
  · rfl

theorem checkStmt_Select_eq_runChecks [GoStrings] (ctx : Context) (select : Select) (r : Record) :
    checkStmt ctx (Statement.Select select) r = runChecks (clauseChecks ctx select) r := by
  rcases select with ⟨selectExprs, from_, where_, groupBy, having, orderBy, limit⟩
  rw [checkStmt_Select]
  simp only [clauseChecks, runChecks_append_fun, checkSelectExprs_eq_runChecks,
    checkTableExprs_eq_runChecks, checkExprs_eq_runChecks, checkOrderBy_eq_runChecks,
    checkWhere_eq_runChecks, checkLimit_eq_runChecks]

theorem clauseChecks_true_or_false [GoStrings] (ctx : Context) (select : Select) :
    ∀ c ∈ clauseChecks ctx select, ∀ r, c r = (true, r) ∨ (c r).1 = false := by
  rcases select with ⟨selectExprs, from_, where_, groupBy, having, orderBy, limit⟩
  have hob : ∀ ob : List (Option Order), ∀ c ∈ orderByChecks ctx ob, ∀ r,
      c r = (true, r) ∨ (c r).1 = false := by
    intro ob
    induction ob with
    | nil => intro c hc; cases hc
    | cons o rest ih =>
      rcases o with _ | ⟨e, d⟩
      · exact ih
      · intro c hc r
        rcases List.mem_cons.mp hc with h | h
        · rw [h]
          exact checkExpr_true_or_false ctx e r
        · exact ih c h r
  have hw : ∀ w : Option Where, ∀ c ∈ whereChecks ctx w, ∀ r,
      c r = (true, r) ∨ (c r).1 = false := by
    intro w c hc r
    rcases w with _ | ⟨t, e⟩
    · cases hc
    · rw [List.mem_singleton.mp hc]
      exact checkExpr_true_or_false ctx e r
  intro c hc r
  simp only [clauseChecks, List.mem_append, List.mem_map] at hc
  rcases hc with ⟨a, _, rfl⟩ | ⟨a, _, rfl⟩ | h | ⟨a, _, rfl⟩ | h | h | h
  · exact checkSelectExpr_true_or_false ctx a r
  · exact checkTableExpr_true_or_false ctx a r
  · exact hw _ c h r
  · exact checkExpr_true_or_false ctx a r
  · exact hw _ c h r
  · exact hob _ c h r
  · rcases limit with _ | ⟨o, rc⟩
    · cases h
    · simp only [limitChecks, List.mem_cons, List.mem_singleton, List.not_mem_nil,
        or_false] at h
      rcases h with h | h
      · rw [h]
        exact checkExpr_true_or_false ctx o r
      · rw [h]
        exact checkExpr_true_or_false ctx rc r

/-! ## Messages -/

theorem append_ne_empty (a b : String) (h : a ≠ "") : a ++ b ≠ "" := by
  intro hab
  apply h
  have h1 : (a ++ b).data = [] := by rw [hab]
  rw [String.data_append] at h1
  exact String.ext (List.append_eq_nil.mp h1).1

theorem checkTableName_fail_message (ctx : Context) (tableName : TableName) (r : Record)
    (h : (checkTableName ctx tableName r).1 = false) :
    (checkTableName ctx tableName r).2.Msg ≠ "" := by
  revert h
  simp only [checkTableName]
  repeat' split
  all_goals first
    | (intro h; cases h; done)
    | (intro _; exact append_ne_empty _ _ (by decide))

theorem checkColNameString_fail_message (ctx : Context) (colname : String) (r : Record)
    (h : (checkColNameString ctx colname r).1 = false) :
    (checkColNameString ctx colname r).2.Msg ≠ "" := by
  revert h
  simp only [checkColNameString]
  repeat' split
  all_goals first
    | (intro h; cases h; done)
    | (intro _; exact append_ne_empty _ _ (by decide))

theorem checkColName_fail_message (ctx : Context) (colname : ColName) (r : Record)
    (h : (checkColName ctx colname r).1 = false) :
    (checkColName ctx colname r).2.Msg ≠ "" := by
  have hd : checkColName ctx colname r =
      andThen (checkTableName ctx colname.Qualifier r)
        (fun r1 => checkColNameString ctx colname.Name.Str r1) := rfl
  rw [hd] at h ⊢
  rcases checkTableName_true_or_false ctx colname.Qualifier r with h1 | h1
  · rw [h1] at h ⊢
    exact checkColNameString_fail_message ctx _ r h
  · rw [andThen_of_false _ h1]
    exact checkTableName_fail_message ctx _ r h1

theorem checkFuncName_fail_message [GoStrings] (ctx : Context) (ident funcName : String) (r : Record)
    (hne : ¬ (ident.length = 0 ∧ funcName.length = 0))
    (h : (checkFuncName ctx ident funcName r).1 = false) :
    (checkFuncName ctx ident funcName r).2.Msg ≠ "" := by
  revert h
  simp only [checkFuncName]
  split
  · next hb =>
    simp only [Bool.and_eq_true, beq_iff_eq] at hb
    exact absurd ⟨hb.2, hb.1⟩ hne
  · repeat' split
    all_goals first
      | (intro h; cases h; done)
      | (intro _; exact append_ne_empty _ _ (by decide))

theorem checkFuncName_both_empty [GoStrings] (ctx : Context) (ident funcName : String) (r : Record)
    (h : ident.length = 0 ∧ funcName.length = 0) :
    checkFuncName ctx ident funcName r = (false, r) := by
  simp [checkFuncName, h.1, h.2]

theorem Site.run_fail [GoStrings] (ctx : Context) (s : Site) (r : Record)
    (h : (s.run ctx r).1 = false) :
    (s.silent = true ∧ s.run ctx r = (false, r)) ∨
    (s.silent = false ∧ (s.run ctx r).2.Msg ≠ "") := by
  cases s with
  | tableSource t => exact Or.inr ⟨rfl, checkTableName_fail_message ctx t r h⟩
  | star t => exact Or.inr ⟨rfl, checkTableName_fail_message ctx t r h⟩
  | funcCall q n =>
    by_cases hb : q.Str.length = 0 ∧ n.Str.length = 0
    · left
      refine ⟨?_, checkFuncName_both_empty ctx _ _ r hb⟩
      simp [Site.silent, hb.1, hb.2]
    · right
      refine ⟨?_, checkFuncName_fail_message ctx _ _ r hb h⟩
      simp only [Site.silent, Bool.and_eq_false_iff, beq_eq_false_iff_ne, ne_eq]
      by_cases h1 : q.Str.length = 0
      · exact Or.inr (fun h2 => hb ⟨h1, h2⟩)
      · exact Or.inl h1
  | substrColumn c => exact Or.inr ⟨rfl, checkColName_fail_message ctx c r h⟩
  | defaultColumn c => exact Or.inr ⟨rfl, checkColNameString_fail_message ctx c r h⟩
  | valuesFunc _ => exact Or.inr ⟨rfl, by show "bad values expr" ≠ ""; decide⟩
  | otherExpr => exact Or.inl ⟨rfl, rfl⟩
  | otherStmt => exact Or.inr ⟨rfl, by show "bad stmt operation" ≠ ""; decide⟩
  | otherTableExpr => exact Or.inr ⟨rfl, by show "bad table expr" ≠ ""; decide⟩
  | otherSimpleTableExpr => exact Or.inr ⟨rfl, by show "bad simple table expr" ≠ ""; decide⟩
  | otherSelectExpr => exact Or.inr ⟨rfl, by show "bad select expr" ≠ ""; decide⟩

theorem runSites_fail [GoStrings] (ctx : Context) (sites : List Site) (r : Record)
    (h : (runSites ctx sites r).1 = false) :
    ∃ s ∈ sites, (s.run ctx r).1 = false ∧ runSites ctx sites r = s.run ctx r ∧
      ((s.silent = true ∧ runSites ctx sites r = (false, r)) ∨
       (s.silent = false ∧ (runSites ctx sites r).2.Msg ≠ "")) := by
  obtain ⟨s, hs, hf, he⟩ := runSites_exists_first_failure ctx sites r h
  refine ⟨s, hs, hf, he, ?_⟩
  rw [he]
  exact Site.run_fail ctx s r hf

/-! ## Larger allowlists -/

theorem checkColName_fst_eq_true_iff (ctx : Context) (colname : ColName) (r : Record) :
    (checkColName ctx colname r).1 = true ↔
      (checkTableName ctx colname.Qualifier r).1 = true ∧
      (checkColNameString ctx colname.Name.Str r).1 = true := by
  have hd : checkColName ctx colname r =
      andThen (checkTableName ctx colname.Qualifier r)
        (fun r1 => checkColNameString ctx colname.Name.Str r1) := rfl
  rw [hd, andThen_fst_eq_true_iff]
  rcases checkTableName_true_or_false ctx colname.Qualifier r with h1 | h1
  · rw [h1]
  · simp [h1]

theorem slotLe_none {a b : Option (List String)} (h : slotLe a b) :
    a = none ↔ b = none := by
  cases a <;> cases b <;> simp_all [slotLe]

theorem slotLe_mem {a b : Option (List String)} (h : slotLe a b) (l : List String)
    (ha : a = some l) (x : String) (hx : x ∈ l) : ∃ l2, b = some l2 ∧ x ∈ l2 := by
  subst ha
  cases b with
  | none => exact absurd h (by simp [slotLe])
  | some l2 => exact ⟨l2, rfl, h x hx⟩

theorem slotLe_allow {a b : Option (List String)} (h : slotLe a b) (x : String)
    (hx : a = none ∨ ∃ l, a = some l ∧ x ∈ l) : b = none ∨ ∃ l, b = some l ∧ x ∈ l := by
  rcases hx with hx | ⟨l, hl, hx⟩
  · exact Or.inl ((slotLe_none h).mp hx)
  · exact Or.inr (slotLe_mem h l hl x hx)

theorem checkTableName_mono (c c2 : Context) (hle : c.le c2) (t : TableName) (r r2 : Record)
    (h : (checkTableName c t r).1 = true) : (checkTableName c2 t r2).1 = true := by
  rw [checkTableName_fst_eq_true_iff] at h ⊢
  rcases h with h | ⟨h1, h2⟩
  · exact Or.inl h
  · refine Or.inr ⟨slotLe_allow hle.1 _ h1, ?_⟩
    rcases h2 with h2 | ⟨l, hl, hx⟩
    · exact Or.inl h2
    · exact Or.inr (slotLe_mem hle.2.1 l hl _ hx)

theorem checkColNameString_mono (c c2 : Context) (hle : c.le c2) (n : String) (r r2 : Record)
    (h : (checkColNameString c n r).1 = true) : (checkColNameString c2 n r2).1 = true := by
  rw [checkColNameString_fst_eq_true_iff] at h ⊢
  rcases h with h | h | ⟨l, hl, hx⟩
  · exact Or.inl h
  · exact Or.inr (Or.inl ((slotLe_none hle.2.2.1).mp h))
  · right
    right
    rcases hx with hx | hx
    · obtain ⟨l2, h2, hx2⟩ := slotLe_mem hle.2.2.1 l hl _ hx
      exact ⟨l2, h2, Or.inl hx2⟩
    · obtain ⟨l2, h2, hx2⟩ := slotLe_mem hle.2.2.1 l hl _ hx
      exact ⟨l2, h2, Or.inr hx2⟩

theorem checkFuncName_mono [GoStrings] (c c2 : Context) (hle : c.le c2) (ident name : String)
    (r r2 : Record) (h : (checkFuncName c ident name r).1 = true) :
    (checkFuncName c2 ident name r2).1 = true := by
  rw [checkFuncName_fst_eq_true_iff] at h ⊢
  obtain ⟨h1, h2, l, hl, hx⟩ := h
  refine ⟨h1, ?_, slotLe_mem hle.2.2.2.2 l hl _ hx⟩
  rcases h2 with h2 | h2
  · exact Or.inl h2
  · exact Or.inr (slotLe_allow hle.2.2.2.1 _ h2)

theorem Site.run_mono [GoStrings] (c c2 : Context) (hle : c.le c2) (s : Site) (r r2 : Record)
    (h : (s.run c r).1 = true) : (s.run c2 r2).1 = true := by
  cases s with
  | tableSource t => exact checkTableName_mono c c2 hle t r r2 h
  | star t => exact checkTableName_mono c c2 hle t r r2 h
  | funcCall q n => exact checkFuncName_mono c c2 hle _ _ r r2 h
  | substrColumn n =>
    have h1 := (checkColName_fst_eq_true_iff c n r).mp h
    exact (checkColName_fst_eq_true_iff c2 n r2).mpr
      ⟨checkTableName_mono c c2 hle _ r r2 h1.1, checkColNameString_mono c c2 hle _ r r2 h1.2⟩
  | defaultColumn n => exact checkColNameString_mono c c2 hle n r r2 h
  | valuesFunc _ => cases h
  | otherExpr => cases h
  | otherStmt => cases h
  | otherTableExpr => cases h
  | otherSimpleTableExpr => cases h
  | otherSelectExpr => cases h

/-! ## Claims on messages, order and the whole tree -/

/-- C11: for a statement as the parser builds it, in which every expression is
of one of the library's types and every function call has a name, so that no
site of the tree is silent, the result from a fresh record has an empty
message if and only if the statement passes, through `checkStmt` and through
`CheckSQL`. -/
theorem checkStmt_message_empty_iff [GoStrings] (ctx : Context) (stmt : Statement)
    (hparsed : ∀ s ∈ sitesStmt stmt, s.silent = false) :
    ((checkStmt ctx stmt (Record.mk "")).2.Msg = "" ↔
      (checkStmt ctx stmt (Record.mk "")).1 = true) ∧
    (∀ (parse : String → Except String Statement) (q : String), parse q = .ok stmt →
      ((CheckSQL parse ctx q).2.1 = "" ↔ (CheckSQL parse ctx q).1 = true)) := by
  have hiff : (checkStmt ctx stmt (Record.mk "")).2.Msg = "" ↔
      (checkStmt ctx stmt (Record.mk "")).1 = true := by
    constructor
    · intro hm
      cases hc : (checkStmt ctx stmt (Record.mk "")).1 with
      | true => rfl
      | false =>
        rw [checkStmt_eq_runSites] at hc hm
        obtain ⟨s, hmem, _, _, h2⟩ := runSites_fail ctx _ _ hc
        rcases h2 with ⟨h3, _⟩ | ⟨_, h3⟩
        · rw [hparsed s hmem] at h3
          cases h3
        · exact absurd hm h3
    · intro h
      rcases checkStmt_true_or_false ctx stmt (Record.mk "") with h1 | h1
      · rw [h1]
      · rw [h1] at h
        cases h
  refine ⟨hiff, ?_⟩
  intro parse q hq
  have hC : CheckSQL parse ctx q =
      ((checkStmt ctx stmt (Record.mk "")).1, (checkStmt ctx stmt (Record.mk "")).2.Msg,
        none) := by
    simp [CheckSQL, hq]
  rw [hC]
  exact hiff

/-- C11 at
`SELECT a FROM t WHERE id IN (SELECT id FROM u WHERE u.id IN (SELECT id FROM v))`
with the table allowlist `t`, `u`, which fails with a message. -/
theorem checkStmt_message_empty_iff_witness :
    (@checkStmt asciiStrings (Context.mk (some ["t", "u"]) none none none none) selectNested
        (Record.mk "")).2.Msg = "" ↔
    (@checkStmt asciiStrings (Context.mk (some ["t", "u"]) none none none none) selectNested
        (Record.mk "")).1 = true :=
  (@checkStmt_message_empty_iff asciiStrings (Context.mk (some ["t", "u"]) none none none none)
    selectNested (by decide)).1

/-- C12: `checkExpr` on a subquery expression is `checkStmt` on the SELECT it
wraps, with the same configuration: same verdict, same record.  Hence a
statement `SELECT items FROM sources WHERE left IN (S)` whose select-items,
table-sources and left operand pass has the verdict and message of `S`; in
`SELECT a FROM t WHERE id IN (SELECT id FROM u WHERE u.id IN (SELECT id FROM v))`
with the table allowlist `t`, `u` the whole statement fails with the message
of the innermost SELECT, "bad table name for v". -/
theorem checkExpr_Subquery_eq_checkStmt [GoStrings] (ctx : Context) (select : Statement) (r : Record) :
    checkExpr ctx (Expr.Subquery (Subquery.mk select)) r = checkStmt ctx select r ∧
    (∀ (items : List SelectExpr) (sources : List TableExpr) (left : Expr)
        (typ operator : String),
      (checkSelectExprs ctx items r).1 = true →
      (checkTableExprs ctx sources r).1 = true →
      (checkExpr ctx left r).1 = true →
      checkStmt ctx
        (Statement.Select (Select.mk items sources
          (some (Where.mk typ
            (Expr.ComparisonExpr operator left (Expr.Subquery (Subquery.mk select)) Expr.nil)))
          [] none [] none)) r = checkStmt ctx select r) ∧
    (checkStmt (Context.mk (some ["t", "u"]) none none none none) selectNested (Record.mk "") =
        checkStmt (Context.mk (some ["t", "u"]) none none none none)
          (selectFrom [colItem "id"] [table "" "v"]) (Record.mk "") ∧
      checkStmt (Context.mk (some ["t", "u"]) none none none none) selectNested (Record.mk "") =
        (false, Record.mk "bad table name for v")) := by
  have h1 : ∀ r0, checkExpr ctx (Expr.Subquery (Subquery.mk select)) r0 =
      checkStmt ctx select r0 := by
    intro r0
    rw [checkExpr_Subquery, andThen_ret]
  refine ⟨h1 r, ?_, rfl, rfl⟩
  intro items sources left typ operator hi hs hl
  have hi2 : checkSelectExprs ctx items r = (true, r) := by
    rw [checkSelectExprs_eq_runSites] at hi ⊢
    rcases runSites_true_or_false ctx (sitesSelectExprs items) r with h | h
    · exact h
    · rw [h] at hi
      cases hi
  have hs2 : checkTableExprs ctx sources r = (true, r) := by
    rw [checkTableExprs_eq_runSites] at hs ⊢
    rcases runSites_true_or_false ctx (sitesTableExprs sources) r with h | h
    · exact h
    · rw [h] at hs
      cases hs
  have hl2 : checkExpr ctx left r = (true, r) := by
    rcases checkExpr_true_or_false ctx left r with h | h
    · exact h
    · rw [h] at hl
      cases hl
  have hw : checkWhere ctx (some (Where.mk typ
      (Expr.ComparisonExpr operator left (Expr.Subquery (Subquery.mk select)) Expr.nil))) r =
      checkStmt ctx select r := by
    show checkExpr ctx
      (Expr.ComparisonExpr operator left (Expr.Subquery (Subquery.mk select)) Expr.nil) r = _
    rw [checkExpr_ComparisonExpr, hl2]
    show andThen (checkExpr ctx (Expr.Subquery (Subquery.mk select)) r) _ = _
    rw [h1 r]
    rcases checkStmt_true_or_false ctx select r with h | h
    · rw [h]
      rfl
    · rw [andThen_of_false _ h]
  rw [checkStmt_Select, hi2]
  show andThen (checkTableExprs ctx sources r) _ = _
  rw [hs2]
  show andThen (checkWhere ctx _ r) _ = _
  rw [hw]
  rcases checkStmt_true_or_false ctx select r with h | h
  · rw [h]
    rfl
  · rw [andThen_of_false _ h]

/-- C13: the checks of a SELECT, listed in the order select-items, FROM
table-sources, WHERE, GROUP BY expressions, HAVING, ORDER BY expressions (nil
entries skipped), LIMIT offset, LIMIT row count (an absent WHERE, HAVING or
LIMIT giving no check), decide `checkStmt`: it passes exactly when every
check of the list passes, and when a check fails after all the checks before
it passed, the result of `checkStmt`, message included, is the result of that
check, whatever comes after it in the list.  In
`SELECT a FROM t WHERE VALUES(x) HAVING f()` the WHERE violation is the one
reported. -/
theorem checkStmt_first_violation [GoStrings] (ctx : Context) (select : Select) (r : Record) :
    ((checkStmt ctx (Statement.Select select) r).1 = true ↔
      ∀ c ∈ clauseChecks ctx select, (c r).1 = true) ∧
    (∀ (pre : List (Record → Bool × Record)) (c : Record → Bool × Record)
        (post : List (Record → Bool × Record)),
      clauseChecks ctx select = pre ++ c :: post →
      (∀ p ∈ pre, (p r).1 = true) → (c r).1 = false →
      (checkStmt ctx (Statement.Select select) r = c r ∧
       ∀ (select2 : Select) (post2 : List (Record → Bool × Record)),
        clauseChecks ctx select2 = pre ++ c :: post2 →
        checkStmt ctx (Statement.Select select2) r =
          checkStmt ctx (Statement.Select select) r)) ∧
    (clauseChecks ctx (Select.mk [] [] none [] none [] none) = [] ∧
     checkStmt noLists
        (Statement.Select (Select.mk [colItem "a"] [table "" "t"]
          (some (Where.mk "where" (Expr.ValuesFuncExpr
            (ColName.mk (ColIdent.mk "x")
              (TableName.mk (TableIdent.mk "") (TableIdent.mk ""))))))
          []
          (some (Where.mk "having"
            (Expr.FuncExpr (TableIdent.mk "") (ColIdent.mk "f") false [])))
          [] none)) (Record.mk "") = (false, Record.mk "bad values expr")) := by
  refine ⟨?_, ?_, rfl, rfl⟩
  · rw [checkStmt_Select_eq_runChecks]
    exact runChecks_fst_eq_true_iff _ (clauseChecks_true_or_false ctx select) r
  · intro pre c post hsplit hpre hfail
    have h1 : checkStmt ctx (Statement.Select select) r = c r := by
      rw [checkStmt_Select_eq_runChecks]
      exact runChecks_first_failure _ (clauseChecks_true_or_false ctx select) r pre c post
        hsplit hpre hfail
    refine ⟨h1, ?_⟩
    intro select2 post2 hsplit2
    rw [h1, checkStmt_Select_eq_runChecks]
    exact runChecks_first_failure _ (clauseChecks_true_or_false ctx select2) r pre c post2
      hsplit2 hpre hfail

/-- C14: `checkSelectExpr` on a star select-item is `checkTableName` on its
table: same verdict, same record.  A star with no table passes under every
configuration; a star with a non-empty table name fails, with
"bad table name for " and the name, whenever the table-name allowlist is
present and does not have the name as an entry. -/
theorem checkSelectExpr_StarExpr_rule [GoStrings] (ctx : Context) (tableName : TableName) (r : Record) :
    checkSelectExpr ctx (SelectExpr.StarExpr tableName) r = checkTableName ctx tableName r ∧
    checkSelectExpr ctx
      (SelectExpr.StarExpr (TableName.mk (TableIdent.mk "") (TableIdent.mk ""))) r = (true, r) ∧
    (∀ l : List String, ctx.allowTableName = some l → tableName.Name.v ≠ "" →
      tableName.Name.v ∉ l →
      checkSelectExpr ctx (SelectExpr.StarExpr tableName) r =
        (false, Record.mk ("bad table name for " ++ tableName.Name.v))) := by
  refine ⟨rfl, rfl, ?_⟩
  intro l hl hne hnot
  show checkTableName ctx tableName r = _
  rcases ctx with ⟨tn, db, cn, fi, fn⟩
  rcases tableName with ⟨⟨n⟩, ⟨q⟩⟩
  simp only at hl hne hnot
  subst hl
  have hin : InList l n = false := (InList_eq_false_iff l n).mpr hnot
  simp [checkTableName, TableName.IsEmpty, TableIdent.IsEmpty, TableIdent.Str, hne, hin]

/-- C15: for a function call whose ident and name pass `checkFuncName`,
`checkExpr` on the call is the run of `checkSelectExpr` over the arguments in
order: it passes exactly when every argument passes, and when an argument
fails after all the arguments before it passed, the result, message included,
is the result of that argument.  With `COUNT` on the function allowlist
`COUNT(*)` passes, and a call whose one argument is a star on a table has the
result of `checkTableName` on that table. -/
theorem checkExpr_FuncExpr_args [GoStrings] (ctx : Context) (qualifier : TableIdent) (name : ColIdent)
    (distinct : Bool) (exprs : List SelectExpr) (r : Record)
    (hf : (checkFuncName ctx qualifier.Str name.Str r).1 = true) :
    ((checkExpr ctx (Expr.FuncExpr qualifier name distinct exprs) r).1 = true ↔
      ∀ a ∈ exprs, (checkSelectExpr ctx a r).1 = true) ∧
    (∀ (pre : List SelectExpr) (a : SelectExpr) (post : List SelectExpr),
      exprs = pre ++ a :: post → (∀ p ∈ pre, (checkSelectExpr ctx p r).1 = true) →
      (checkSelectExpr ctx a r).1 = false →
      checkExpr ctx (Expr.FuncExpr qualifier name distinct exprs) r =
        checkSelectExpr ctx a r) ∧
    (∀ tableName : TableName,
      checkExpr ctx (Expr.FuncExpr qualifier name distinct [SelectExpr.StarExpr tableName]) r =
        checkTableName ctx tableName r) ∧
    (∀ tn db cn fi : Option (List String),
      checkExpr (Context.mk tn db cn fi (some ["COUNT"]))
        (Expr.FuncExpr (TableIdent.mk "") (ColIdent.mk "COUNT") false
          [SelectExpr.StarExpr (TableName.mk (TableIdent.mk "") (TableIdent.mk ""))]) r =
        (true, r)) := by
  have hf2 : checkFuncName ctx qualifier.Str name.Str r = (true, r) := by
    rcases checkFuncName_true_or_false ctx qualifier.Str name.Str r with h | h
    · exact h
    · rw [h] at hf
      cases hf
  have hrun : ∀ es : List SelectExpr,
      checkExpr ctx (Expr.FuncExpr qualifier name distinct es) r =
        runChecks (es.map (checkSelectExpr ctx)) r := by
    intro es
    rw [checkExpr_FuncExpr, hf2]
    show andThen (checkSelectExprs ctx es r) (fun r2 => (true, r2)) = _
    rw [andThen_ret, checkSelectExprs_eq_runChecks]
  have hframe : ∀ es : List SelectExpr, ∀ c ∈ es.map (checkSelectExpr ctx), ∀ r0,
      c r0 = (true, r0) ∨ (c r0).1 = false := by
    intro es c hc r0
    obtain ⟨a, _, rfl⟩ := List.mem_map.mp hc
    exact checkSelectExpr_true_or_false ctx a r0
  refine ⟨?_, ?_, ?_, ?_⟩
  · rw [hrun, runChecks_fst_eq_true_iff _ (hframe exprs) r]
    simp only [List.mem_map, forall_exists_index, and_imp, forall_apply_eq_imp_iff₂]
  · intro pre a post hsplit hpre hfail
    rw [hrun]
    apply runChecks_first_failure _ (hframe exprs) r (pre.map (checkSelectExpr ctx))
      (checkSelectExpr ctx a) (post.map (checkSelectExpr ctx))
    · rw [hsplit]
      simp
    · intro p hp
      obtain ⟨b, hb, rfl⟩ := List.mem_map.mp hp
      exact hpre b hb
    · exact hfail
  · intro tableName
    rw [hrun]
    show andThen (checkTableName ctx tableName r) (fun r1 => (true, r1)) = _
    rw [andThen_ret]
  · intro tn db cn fi
    have hu : ToUpper "COUNT" = "COUNT" := ToUpper_of_ascii "COUNT" "COUNT" (by decide) (by decide)
    have hfn : checkFuncName (Context.mk tn db cn fi (some ["COUNT"])) (TableIdent.mk "").Str
        (ColIdent.mk "COUNT").Str r = (true, r) := by
      have hl : ¬ "COUNT".length = 0 := by decide
      simp [checkFuncName, TableIdent.Str, ColIdent.Str, hu, hl, InList]
    rw [checkExpr_FuncExpr, hfn]
    rfl

/-- C15 at `COUNT(*, x)` with `COUNT` allowed. -/
theorem checkExpr_FuncExpr_args_witness :
    (@checkExpr asciiStrings (Context.mk none none none none (some ["COUNT"]))
      (Expr.FuncExpr (TableIdent.mk "") (ColIdent.mk "count") false
        [SelectExpr.StarExpr (TableName.mk (TableIdent.mk "") (TableIdent.mk "")),
         colItem "x"]) (Record.mk "")).1 = true ↔
    ∀ a ∈ [SelectExpr.StarExpr (TableName.mk (TableIdent.mk "") (TableIdent.mk "")),
        colItem "x"],
      (@checkSelectExpr asciiStrings (Context.mk none none none none (some ["COUNT"])) a
        (Record.mk "")).1 = true :=
  (@checkExpr_FuncExpr_args asciiStrings (Context.mk none none none none (some ["COUNT"]))
    (TableIdent.mk "") (ColIdent.mk "count") false
    [SelectExpr.StarExpr (TableName.mk (TableIdent.mk "") (TableIdent.mk "")), colItem "x"]
    (Record.mk "") (by decide)).1

/-- C16: `checkTableExpr` on a join passes exactly when the left table-source,
the right table-source and the ON condition pass (a nil condition passes);
they are checked in that order, the result being that of the first of the
three that fails; the join kind plays no part. -/
theorem checkTableExpr_JoinTableExpr_rule [GoStrings] (ctx : Context) (leftExpr : TableExpr)
    (join : String) (rightExpr : TableExpr) (on_ : Expr) (r : Record) :
    ((checkTableExpr ctx (TableExpr.JoinTableExpr leftExpr join rightExpr on_) r).1 = true ↔
      (checkTableExpr ctx leftExpr r).1 = true ∧ (checkTableExpr ctx rightExpr r).1 = true ∧
      (checkExpr ctx on_ r).1 = true) ∧
    ((checkTableExpr ctx leftExpr r).1 = false →
      checkTableExpr ctx (TableExpr.JoinTableExpr leftExpr join rightExpr on_) r =
        checkTableExpr ctx leftExpr r) ∧
    ((checkTableExpr ctx leftExpr r).1 = true → (checkTableExpr ctx rightExpr r).1 = false →
      checkTableExpr ctx (TableExpr.JoinTableExpr leftExpr join rightExpr on_) r =
        checkTableExpr ctx rightExpr r) ∧
    ((checkTableExpr ctx leftExpr r).1 = true → (checkTableExpr ctx rightExpr r).1 = true →
      checkTableExpr ctx (TableExpr.JoinTableExpr leftExpr join rightExpr on_) r =
        checkExpr ctx on_ r) ∧
    checkExpr ctx Expr.nil r = (true, r) ∧
    (∀ join2 : String,
      checkTableExpr ctx (TableExpr.JoinTableExpr leftExpr join2 rightExpr on_) r =
        checkTableExpr ctx (TableExpr.JoinTableExpr leftExpr join rightExpr on_) r) := by
  have hl := checkTableExpr_true_or_false ctx leftExpr r
  have hr := checkTableExpr_true_or_false ctx rightExpr r
  have ho := checkExpr_true_or_false ctx on_ r
  have hd : checkTableExpr ctx (TableExpr.JoinTableExpr leftExpr join rightExpr on_) r =
      andThen (checkTableExpr ctx leftExpr r) (fun r1 =>
        andThen (checkTableExpr ctx rightExpr r1) (fun r2 => checkExpr ctx on_ r2)) := by
    rw [checkTableExpr_JoinTableExpr]
    simp only [andThen_ret]
  refine ⟨?_, ?_, ?_, ?_, rfl, fun _ => rfl⟩
  · rw [hd]
    rcases hl with hl | hl
    · rw [hl]
      show (andThen (checkTableExpr ctx rightExpr r) _).1 = true ↔ _
      rcases hr with hr | hr
      · rw [hr]
        show (checkExpr ctx on_ r).1 = true ↔ _
        simp
      · rw [andThen_of_false _ hr]
        simp [hr]
    · rw [andThen_of_false _ hl]
      simp [hl]
  · intro h
    rw [hd, andThen_of_false _ h]
  · intro h1 h2
    rcases hl with hl | hl
    · rw [hd, hl]
      show andThen (checkTableExpr ctx rightExpr r) _ = _
      rw [andThen_of_false _ h2]
    · rw [hl] at h1
      cases h1
  · intro h1 h2
    rcases hl with hl | hl
    · rcases hr with hr | hr
      · rw [hd, hl]
        show andThen (checkTableExpr ctx rightExpr r) _ = _
        rw [hr]
        rfl
      · rw [hr] at h2
        cases h2
    · rw [hl] at h1
      cases h1

/-- C17: `checkExpr` on an expression of a type it does not name returns false
and leaves the record as it was, so a statement rejected for this reason from
a fresh record has an empty message.  A failure of `checkExpr`,
`checkTableExpr` or `checkSelectExpr` has the result of the first check site
that fails: when that site is such an expression, or a function call whose
ident and name are both empty, the record is left as it was; at every other
site the message left is not empty. -/
theorem checkExpr_other_silent [GoStrings] (ctx : Context) (r : Record) :
    checkExpr ctx Expr.other r = (false, r) ∧
    (∀ cn fi fn : Option (List String),
      checkStmt (Context.mk none none cn fi fn) (selectWhere Expr.other) (Record.mk "") =
        (false, Record.mk "")) ∧
    (∀ expr : Expr, (checkExpr ctx expr r).1 = false →
      ∃ s ∈ sitesExpr expr, (s.run ctx r).1 = false ∧ checkExpr ctx expr r = s.run ctx r ∧
        ((s.silent = true ∧ checkExpr ctx expr r = (false, r)) ∨
         (s.silent = false ∧ (checkExpr ctx expr r).2.Msg ≠ ""))) ∧
    (∀ expr : TableExpr, (checkTableExpr ctx expr r).1 = false →
      ∃ s ∈ sitesTableExpr expr, (s.run ctx r).1 = false ∧
        checkTableExpr ctx expr r = s.run ctx r ∧
        ((s.silent = true ∧ checkTableExpr ctx expr r = (false, r)) ∨
         (s.silent = false ∧ (checkTableExpr ctx expr r).2.Msg ≠ ""))) ∧
    (∀ expr : SelectExpr, (checkSelectExpr ctx expr r).1 = false →
      ∃ s ∈ sitesSelectExpr expr, (s.run ctx r).1 = false ∧
        checkSelectExpr ctx expr r = s.run ctx r ∧
        ((s.silent = true ∧ checkSelectExpr ctx expr r = (false, r)) ∨
         (s.silent = false ∧ (checkSelectExpr ctx expr r).2.Msg ≠ ""))) ∧
    (∀ s : Site, s.silent = true ↔
      s = Site.otherExpr ∨
      ∃ qualifier name, s = Site.funcCall qualifier name ∧ qualifier.v = "" ∧ name.val = "") := by
  refine ⟨rfl, fun _ _ _ => rfl, ?_, ?_, ?_, ?_⟩
  · intro expr h
    rw [checkExpr_eq_runSites] at h ⊢
    exact runSites_fail ctx _ r h
  · intro expr h
    rw [checkTableExpr_eq_runSites] at h ⊢
    exact runSites_fail ctx _ r h
  · intro expr h
    rw [checkSelectExpr_eq_runSites] at h ⊢
    exact runSites_fail ctx _ r h
  · intro s
    cases s with
    | funcCall q n =>
      rcases q with ⟨q⟩
      rcases n with ⟨n⟩
      simp only [Site.silent, TableIdent.Str, ColIdent.Str, Bool.and_eq_true, beq_iff_eq,
        length_eq_zero_iff, Site.funcCall.injEq, false_or, reduceCtorEq]
      constructor
      · rintro ⟨h1, h2⟩
        exact ⟨TableIdent.mk q, ColIdent.mk n, ⟨rfl, rfl⟩, h1, h2⟩
      · rintro ⟨_, _, ⟨rfl, rfl⟩, h1, h2⟩
        exact ⟨h1, h2⟩
    | otherExpr => simp [Site.silent]
    | tableSource _ => simp [Site.silent]
    | star _ => simp [Site.silent]
    | substrColumn _ => simp [Site.silent]
    | defaultColumn _ => simp [Site.silent]
    | valuesFunc _ => simp [Site.silent]
    | otherStmt => simp [Site.silent]
    | otherTableExpr => simp [Site.silent]
    | otherSimpleTableExpr => simp [Site.silent]
    | otherSelectExpr => simp [Site.silent]

/-- C18: when `checkStmt` passes, every function call of the statement, at any
depth, has its upper-cased name on the function-name allowlist, which is
present, and its ident is empty, or the ident allowlist is absent, or the
ident is an entry of the ident allowlist. -/
theorem checkStmt_funcs_sound [GoStrings] (ctx : Context) (stmt : Statement) (r : Record)
    (hpass : (checkStmt ctx stmt r).1 = true) (qualifier : TableIdent) (name : ColIdent)
    (hocc : Site.funcCall qualifier name ∈ sitesStmt stmt) :
    (∃ l, ctx.allowFuncName = some l ∧ ToUpper name.val ∈ l) ∧
    (qualifier.v = "" ∨ ctx.allowFuncIdent = none ∨
      ∃ l, ctx.allowFuncIdent = some l ∧ qualifier.v ∈ l) := by
  rw [checkStmt_eq_runSites] at hpass
  have h := (runSites_fst_eq_true_iff ctx _ r).mp hpass _ hocc
  obtain ⟨_, h2, h3⟩ := (checkFuncName_fst_eq_true_iff ctx qualifier.Str name.Str r).mp h
  exact ⟨h3, h2⟩

/-- C18 at `SELECT COUNT(*) FROM t` with `COUNT` allowed. -/
theorem checkStmt_funcs_sound_witness :
    (∃ l, (Context.mk none none none none (some ["COUNT"])).allowFuncName = some l ∧
      @ToUpper asciiStrings (ColIdent.mk "COUNT").val ∈ l) ∧
    ((TableIdent.mk "").v = "" ∨
      (Context.mk none none none none (some ["COUNT"])).allowFuncIdent = none ∨
      ∃ l, (Context.mk none none none none (some ["COUNT"])).allowFuncIdent = some l ∧
        (TableIdent.mk "").v ∈ l) :=
  @checkStmt_funcs_sound asciiStrings (Context.mk none none none none (some ["COUNT"])) selectCountStar
    (Record.mk "") (by decide) (TableIdent.mk "") (ColIdent.mk "COUNT") (by decide)

/-- C19: when two configurations have the same slots present and every present
allowlist of the first is included in that of the second, a statement that
passes under the first passes under the second. -/
theorem checkStmt_mono [GoStrings] (c c2 : Context) (hle : c.le c2) (stmt : Statement) (r r2 : Record)
    (hpass : (checkStmt c stmt r).1 = true) : (checkStmt c2 stmt r2).1 = true := by
  rw [checkStmt_eq_runSites] at hpass ⊢
  rw [runSites_fst_eq_true_iff] at hpass ⊢
  intro s hs
  exact Site.run_mono c c2 hle s r r2 (hpass s hs)

/-- C19 at `SELECT COUNT(*) FROM t`, from the allowlists `t` and `COUNT` to
`t`, `u` and `COUNT`, `SUM`. -/
theorem checkStmt_mono_witness :
    (@checkStmt asciiStrings (Context.mk (some ["t", "u"]) none none none (some ["COUNT", "SUM"]))
      selectCountStar (Record.mk "")).1 = true :=
  @checkStmt_mono asciiStrings (Context.mk (some ["t"]) none none none (some ["COUNT"]))
    (Context.mk (some ["t", "u"]) none none none (some ["COUNT", "SUM"]))
    (by simp [Context.le, slotLe]) selectCountStar (Record.mk "") (Record.mk "") (by decide)

/-- C20: a check that returns true leaves the record as it was: `checkStmt`,
`checkTableExpr`, `checkSimpleTableExpr`, `checkExpr` and `checkSelectExpr`
return `(true, r)` from the record `r` whenever they return true; hence the
message `CheckSQL` returns with allowed = true is empty. -/
theorem checkStmt_true_leaves_record [GoStrings] (ctx : Context) (stmt : Statement) (r : Record)
    (hpass : (checkStmt ctx stmt r).1 = true) :
    checkStmt ctx stmt r = (true, r) ∧
    (∀ expr : TableExpr, (checkTableExpr ctx expr r).1 = true →
      checkTableExpr ctx expr r = (true, r)) ∧
    (∀ expr : SimpleTableExpr, (checkSimpleTableExpr ctx expr r).1 = true →
      checkSimpleTableExpr ctx expr r = (true, r)) ∧
    (∀ expr : Expr, (checkExpr ctx expr r).1 = true → checkExpr ctx expr r = (true, r)) ∧
    (∀ expr : SelectExpr, (checkSelectExpr ctx expr r).1 = true →
      checkSelectExpr ctx expr r = (true, r)) ∧
    (∀ (parse : String → Except String Statement) (q : String),
      (CheckSQL parse ctx q).1 = true → (CheckSQL parse ctx q).2.1 = "") := by
  have pick : ∀ a : Bool × Record, (a = (true, r) ∨ a.1 = false) → a.1 = true →
      a = (true, r) := by
    intro a h1 h2
    rcases h1 with h1 | h1
    · exact h1
    · rw [h1] at h2
      cases h2
  refine ⟨pick _ (checkStmt_true_or_false ctx stmt r) hpass, ?_, ?_, ?_, ?_, ?_⟩
  · exact fun e h => pick _ (checkTableExpr_true_or_false ctx e r) h
  · exact fun e h => pick _ (checkSimpleTableExpr_true_or_false ctx e r) h
  · exact fun e h => pick _ (checkExpr_true_or_false ctx e r) h
  · exact fun e h => pick _ (checkSelectExpr_true_or_false ctx e r) h
  · intro parse q h
    unfold CheckSQL at h ⊢
    cases hp : parse q with
    | error err =>
      rw [hp] at h
      cases h
    | ok s =>
      rw [hp] at h
      simp only at h ⊢
      rcases checkStmt_true_or_false ctx s (Record.mk "") with h1 | h1
      · rw [h1]
      · rw [h1] at h
        cases h

/-- C20 at `SELECT t.* FROM a JOIN (SELECT * FROM b) AS s ON EXISTS (SELECT 1 FROM c)`
from a record that already holds a message. -/
theorem checkStmt_true_leaves_record_witness :
    @checkStmt asciiStrings noLists selectJoined (Record.mk "earlier") = (true, Record.mk "earlier") :=
  (@checkStmt_true_leaves_record asciiStrings noLists selectJoined (Record.mk "earlier") (by decide)).1

end SafeSql
